import Mathlib

/-!
Shallow embedding of the NLU parser (language detector, text normalizer,
intent classifier, entity extractor) of this repository, together with
proofs checking the natural-language specification against the code.

Python regular expressions used by the code are restricted to a small
fragment (word boundaries, anchors, literal alternation groups, optional
apostrophes, greedy `.*`, `\d+`, character classes and one starred group);
the fragment is embedded below as an executable backtracking matcher with
Python's leftmost/greedy preference order, driven by explicit fuel.
Floating point scores are modelled by rational numbers.
-/

namespace RE

/-- The apostrophe character (kept out of string literals in this file). -/
def apoChar : Char := Char.ofNat 39

/-- Whitespace characters recognised by Python's `\s` / `str.split` /
`str.strip` (space, tab, newline, carriage return, form feed, vertical tab). -/
def isSpace (c : Char) : Bool :=
  c = ' ' || c = '\t' || c = '\n' || c = '\x0d' || c = '\x0b' || c = '\x0c'

/-- Word characters for `\b`: ASCII alphanumerics, underscore, and the
non-ASCII letters appearing in the repository's patterns. -/
def isWordChar (c : Char) : Bool :=
  c.isAlphanum || c = '_' ||
  (['ä', 'ö', 'å', 'Ä', 'Ö', 'Å', 'é', 'Г', 'Ө', 'Ҙ'].contains c)

/-- ASCII decimal digit (Python `\d` on our inputs). -/
def isDigit (c : Char) : Bool := c.isDigit

/-- Case-insensitive character comparison (`re.IGNORECASE`, ASCII case map). -/
def lowEq (a b : Char) : Bool := a.toLower = b.toLower

/-- An element of a regex in the fragment used by the repository:
literal text, an optional apostrophe (`'?`), greedy `.*`, character
classes with greedy `+`/`*`, word boundary `\b`, start anchor `^`,
an alternation group `(b1|b2|…)`, and a greedy starred group. -/
inductive Rx where
  | lit (s : List Char)
  | apos
  | dotStar
  | cls (p : Char → Bool)
  | clsPlus (p : Char → Bool)
  | clsStar (p : Char → Bool)
  | wb
  | bos
  | grp (bs : List (List Rx))
  | starGrp (ps : List Rx)

/-- Match a literal (case-insensitively) against a prefix of the text,
returning the last consumed text character and the rest. -/
def litMatch : List Char → Option Char → List Char → Option (Option Char × List Char)
  | [], prev, cs => some (prev, cs)
  | p :: ps, _, c :: cs => if lowEq p c then litMatch ps (some c) cs else none
  | _ :: _, _, [] => none

/-- `\b` holds between `prev` and the next character iff exactly one side
is a word character (text ends count as non-word). -/
def atBoundary (prev : Option Char) (cs : List Char) : Bool :=
  let l := match prev with | none => false | some c => isWordChar c
  let r := match cs with | [] => false | c :: _ => isWordChar c
  l != r

/-- `.` matches every character except a newline (no DOTALL flag is used). -/
def dotChar (c : Char) : Bool := c != '\n'

/-- Backtracking matcher with Python's preference order (greedy stars,
alternation branches in order, `'?` preferring presence): first success
of the whole sequence, returning the last consumed character and the
remaining text.  `prev` is the character before the current position
(`none` at the start of the string). -/
def matchRx (fuel : Nat) (items : List Rx) (prev : Option Char)
    (cs : List Char) : Option (Option Char × List Char) :=
  match fuel with
  | 0 => none
  | fuel + 1 =>
    match items with
    | [] => some (prev, cs)
    | Rx.lit s :: rest =>
      match litMatch s prev cs with
      | some (p, cs2) => matchRx fuel rest p cs2
      | none => none
    | Rx.apos :: rest =>
      (match cs with
        | c :: cs2 =>
          if c = apoChar then matchRx fuel rest (some c) cs2 else none
        | [] => none) <|>
      matchRx fuel rest prev cs
    | Rx.dotStar :: rest =>
      (match cs with
        | c :: cs2 =>
          if dotChar c then matchRx fuel (Rx.dotStar :: rest) (some c) cs2
          else none
        | [] => none) <|>
      matchRx fuel rest prev cs
    | Rx.cls p :: rest =>
      (match cs with
        | c :: cs2 => if p c then matchRx fuel rest (some c) cs2 else none
        | [] => none)
    | Rx.clsPlus p :: rest =>
      (match cs with
        | c :: cs2 =>
          if p c then matchRx fuel (Rx.clsStar p :: rest) (some c) cs2
          else none
        | [] => none)
    | Rx.clsStar p :: rest =>
      (match cs with
        | c :: cs2 =>
          if p c then matchRx fuel (Rx.clsStar p :: rest) (some c) cs2
          else none
        | [] => none) <|>
      matchRx fuel rest prev cs
    | Rx.wb :: rest =>
      if atBoundary prev cs then matchRx fuel rest prev cs else none
    | Rx.bos :: rest =>
      match prev with
      | none => matchRx fuel rest prev cs
      | some _ => none
    | Rx.grp [] :: _ => none
    | Rx.grp (b :: bs) :: rest =>
      matchRx fuel (b ++ rest) prev cs <|>
      matchRx fuel (Rx.grp bs :: rest) prev cs
    | Rx.starGrp ps :: rest =>
      matchRx fuel (ps ++ Rx.starGrp ps :: rest) prev cs <|>
      matchRx fuel rest prev cs

/-- Fuel sufficient for any backtracking path on this text. -/
def defFuel (cs : List Char) : Nat := 4 * cs.length + 400

/-- `re.search` scan: try the pattern at each position, left to right. -/
def searchAux (fuelM : Nat) (pat : List Rx) :
    Nat → Option Char → List Char → Bool
  | 0, _, _ => false
  | f + 1, prev, cs =>
    match matchRx fuelM pat prev cs with
    | some _ => true
    | none =>
      match cs with
      | [] => false
      | c :: cs2 => searchAux fuelM pat f (some c) cs2

/-- `re.findall` match count: scan left to right, skipping past each
(non-overlapping) match; an empty match advances one character. -/
def countAux (fuelM : Nat) (pat : List Rx) :
    Nat → Option Char → List Char → Nat
  | 0, _, _ => 0
  | f + 1, prev, cs =>
    match matchRx fuelM pat prev cs with
    | some (p, rest) =>
      if rest.length = cs.length then
        match cs with
        | [] => 1
        | c :: cs2 => 1 + countAux fuelM pat f (some c) cs2
      else 1 + countAux fuelM pat f p rest
    | none =>
      match cs with
      | [] => 0
      | c :: cs2 => countAux fuelM pat f (some c) cs2

/-- `re.findall` collecting the matched substrings (used where the whole
match is the single capture group). -/
def stringsAux (fuelM : Nat) (pat : List Rx) :
    Nat → Option Char → List Char → List (List Char)
  | 0, _, _ => []
  | f + 1, prev, cs =>
    match matchRx fuelM pat prev cs with
    | some (p, rest) =>
      if rest.length = cs.length then
        match cs with
        | [] => [[]]
        | c :: cs2 => [] :: stringsAux fuelM pat f (some c) cs2
      else
        (cs.take (cs.length - rest.length)) :: stringsAux fuelM pat f p rest
    | none =>
      match cs with
      | [] => []
      | c :: cs2 => stringsAux fuelM pat f (some c) cs2

/-- `re.search(pat, s)` as a Boolean. -/
def searchB (pat : List Rx) (s : String) : Bool :=
  searchAux (defFuel s.data) pat (s.data.length + 1) none s.data

/-- `len(re.findall(pat, s))`. -/
def count (pat : List Rx) (s : String) : Nat :=
  countAux (defFuel s.data) pat (s.data.length + 1) none s.data

/-- `re.findall(pat, s)` as matched substrings. -/
def strings (pat : List Rx) (s : String) : List String :=
  (stringsAux (defFuel s.data) pat (s.data.length + 1) none s.data).map
    (fun l => String.mk l)

/-- Prepend a literal character, merging with a following literal. -/
def consLit (c : Char) : List Rx → List Rx
  | Rx.lit s :: ps => Rx.lit (c :: s) :: ps
  | ps => Rx.lit [c] :: ps

/-- Parse the body of a branch: `.*` becomes a greedy dot-star, an
apostrophe followed by `?` becomes an optional apostrophe, everything else
is literal text (the branches used by the repository contain no other
metacharacters). -/
def parseBranch : List Char → List Rx
  | [] => []
  | '.' :: '*' :: rest => Rx.dotStar :: parseBranch rest
  | c :: '?' :: rest =>
    if c = apoChar then Rx.apos :: parseBranch rest
    else consLit c (consLit '?' (parseBranch rest))
  | c :: rest => consLit c (parseBranch rest)

/-- Split a group body at `|` (written directly on character lists so that
everything reduces inside the kernel). -/
def splitBar : List Char → List (List Char)
  | [] => [[]]
  | '|' :: rest => [] :: splitBar rest
  | c :: rest =>
    match splitBar rest with
    | g :: gs => (c :: g) :: gs
    | [] => [[c]]

/-- An alternation group `(b1|b2|…)` given by its `|`-separated body. -/
def grp (s : String) : Rx :=
  Rx.grp ((splitBar s.data).map parseBranch)

/-- `\b(…)\b`: the most common pattern shape in the repository. -/
def wpat (s : String) : List Rx := [Rx.wb, grp s, Rx.wb]

/-- `\b` atom. -/
def wb : Rx := Rx.wb

/-- `.*` atom. -/
def ds : Rx := Rx.dotStar

/-- `(\d+)` group. -/
def dplus : Rx := Rx.grp [[Rx.clsPlus isDigit]]

end RE

/-!  Rational arithmetic.  The repository computes its scores in Python
floats; they are modelled by rationals.  Mathlib's `Rat` field operations
are irreducible, so kernel-reducible wrappers via `mkRat` are used in the
executable definitions and related to `+`, `*`, `/` by the lemmas below. -/

/-- Kernel-reducible rational addition. -/
def qadd (a b : Rat) : Rat := mkRat (a.num * b.den + b.num * a.den) (a.den * b.den)

/-- Kernel-reducible rational multiplication. -/
def qmul (a b : Rat) : Rat := mkRat (a.num * b.num) (a.den * b.den)

/-- Kernel-reducible rational division (`a / 0 = 0`, as in Mathlib). -/
def qdiv (a b : Rat) : Rat :=
  if 0 ≤ b.num then mkRat (a.num * b.den) (a.den * b.num.toNat)
  else mkRat (-(a.num * b.den)) (a.den * (-b.num).toNat)

/-- Rational constant `n / d` in reducible form. -/
def q (n : Int) (d : Nat) : Rat := mkRat n d

namespace IC

/-!  Embedding of `NLU/intent_classifier.py` (`IntentClassifier`).  The
semantic fallback (`semantic_intent_classifier.py`) depends on scikit-learn
cosine similarities, modelled by an oracle `sims` giving each intent's
maximal similarity to the input (or `none` when that intent's vectors are
missing); the surrounding control flow is embedded faithfully.  -/

/-- Python `str.lower()` (ASCII case map, as used by our inputs). -/
def lowerStr (s : String) : String := String.mk (s.data.map Char.toLower)

/-- Python substring containment `needle in hay` on character lists. -/
def containsList (n : List Char) : List Char → Bool
  | [] => n.isEmpty
  | c :: rest => n.isPrefixOf (c :: rest) || containsList n rest

/-- Python substring containment `needle in hay`. -/
def containsSub (n hay : String) : Bool := containsList n.data hay.data

/-- Python `str.strip()`. -/
def strip (s : String) : String :=
  String.mk (((s.data.dropWhile RE.isSpace).reverse.dropWhile RE.isSpace).reverse)

/-- Python no-argument `str.split()`: whitespace-separated words. -/
def pySplitAux : List Char → List Char → List (List Char)
  | acc, [] => if acc.isEmpty then [] else [acc.reverse]
  | acc, c :: rest =>
    if RE.isSpace c then
      if acc.isEmpty then pySplitAux [] rest
      else acc.reverse :: pySplitAux [] rest
    else pySplitAux (c :: acc) rest

/-- Python no-argument `str.split()`. -/
def pySplit (s : String) : List String :=
  (pySplitAux [] s.data).map (fun l => String.mk l)

/-- Association-list lookup (insertion-ordered Python dict). -/
def alookup {α : Type} (k : String) : List (String × α) → Option α
  | [] => none
  | (k2, v) :: rest => if k2 = k then some v else alookup k rest

/-- Whether an association list has a key (`k in dict`). -/
def hasKey {α : Type} (k : String) (l : List (String × α)) : Bool :=
  (alookup k l).isSome

/-- `INTENT_PATTERNS` of `IntentClassifier`, transliterated pattern by
pattern; each regex is the atom sequence produced by the builders of `RE`. -/
def intentPatterns : List (String × List (String × List (List RE.Rx))) :=
  [("confirm_substitution",
    [("en",
      [RE.wpat "yes|yeah|yep|ok|okay|accept|agreed|sure|fine|good|approved|confirm|confirmed",
       RE.wpat "i accept|i agree|that works|sounds good|go ahead|proceed",
       [RE.wb, RE.grp "i\x27?ll take|i want|i\x27?d like|i\x27?ll accept|take it|give me|send me",
        RE.wb, RE.ds, RE.wb, RE.grp "replacement|substitute|alternative|instead", RE.wb],
       [RE.wb, RE.grp "replace|substitute|swap", RE.ds, RE.wb,
        RE.grp "it|them|this|that", RE.wb]]),
     ("fi",
      [RE.wpat "kyllä|joo|okei|hyväksyn|sopii|hyvä|hyväksytty|vahvistan|sama käy|sopii mulle|ota se|anna se|lähetä se",
       [RE.wb, RE.grp "otan|haluan|saan", RE.ds, RE.wb,
        RE.grp "korvauksen|vaihtoehdon|tilalle", RE.wb]]),
     ("sv",
      [RE.wpat "ja|okej|acceptera|godkänd|bekräfta|det fungerar|det låter bra|gå vidare|jag tar|jag vill ha|skicka",
       RE.wpat "ersättning|alternativ|istället"])]),
   ("reject_substitution",
    [("en",
      [RE.wpat "no|nope|nah|decline|reject|refuse",
       RE.wpat "don\x27?t want|don\x27?t need|don\x27?t like|don\x27?t accept",
       RE.wpat "i don\x27?t want|i don\x27?t need|i don\x27?t like|i don\x27?t accept",
       RE.wpat "no thanks|no thank you|not that|not interested|not acceptable",
       RE.wpat "skip|cancel|remove|without|without it|leave it out|don\x27?t send|don\x27?t include",
       [RE.wb, RE.grp "not|don\x27?t|won\x27?t|can\x27?t", RE.ds, RE.wb,
        RE.grp "agree|accept|want|need|like", RE.wb]]),
     ("fi",
      [RE.wpat "ei|en halua|en tarvitse|hylkään|kieltäydyn|ei kiitos|ohita|poista|peruuta",
       RE.wpat "ilman|jätä pois|älä lähetä|älä sisällytä"]),
     ("sv",
      [RE.wpat "nej|avvisa|jag vill inte|jag behöver inte|inte intresserad|hoppa över|ta bort|avbryt",
       RE.wpat "utan|utan den|lämna bort|skicka inte|inkludera inte"])]),
   ("request_callback",
    [("en",
      [RE.wpat "call me|call back|callback|speak to|talk to|human|person|agent|representative|customer service",
       [RE.wb, RE.grp "i want to|i need to|can i|may i|i would like to", RE.ds,
        RE.wb, RE.grp "speak|talk|call", RE.wb],
       RE.wpat "contact me|reach me|get in touch",
       [RE.wb, RE.grp "speak to|talk to", RE.ds, RE.wb,
        RE.grp "someone|human|person|agent|representative", RE.wb],
       [RE.wb, RE.grp "i need|i want", RE.ds, RE.wb,
        RE.grp "to speak|to talk|to call|someone|human|person", RE.wb]]),
     ("fi",
      [RE.wpat "soita|soita takaisin|puhu|ihminen|henkilö|asiakaspalvelu|edustaja",
       [RE.wb, RE.grp "haluan|tarvitsen|voinko", RE.ds, RE.wb,
        RE.grp "puhua|soittaa", RE.wb],
       RE.wpat "ota yhteyttä|yhteydenotto"]),
     ("sv",
      [RE.wpat "ring mig|ring tillbaka|tala med|människa|person|agent|kundtjänst",
       [RE.wb, RE.grp "jag vill|jag behöver|kan jag", RE.ds, RE.wb,
        RE.grp "tala|prata|ringa", RE.wb],
       RE.wpat "kontakta mig|nå mig"])]),
   ("report_issue",
    [("en",
      [RE.wpat "missing|missed|didn\x27?t receive|did not receive|not received|never received|didn\x27?t get|did not get|not got|wrong|incorrect|damaged|broken|defective|problem|issue|complaint",
       [RE.wb, RE.grp "item|product|order|delivery", RE.ds, RE.wb,
        RE.grp "missing|wrong|damaged|broken|not here|not delivered|didn\x27?t arrive|did not arrive", RE.wb],
       [RE.wb, RE.grp "there\x27?s|there is|i have|i\x27?m missing|i am missing",
        RE.ds, RE.wb, RE.grp "problem|issue|complaint|missing", RE.wb],
       [RE.wb, RE.grp "i didn\x27?t|i did not|i haven\x27?t|i have not", RE.ds,
        RE.wb, RE.grp "receive|get|receive|obtain", RE.wb],
       [RE.wb, RE.grp "only|just|merely", RE.ds, RE.wb, RE.dplus, RE.ds, RE.wb,
        RE.grp "not|instead of|but not|but got|but received", RE.ds, RE.wb,
        RE.dplus, RE.wb],
       [RE.wb, RE.grp "should be|should have|expected|supposed to be", RE.ds,
        RE.wb, RE.dplus, RE.ds, RE.wb, RE.grp "but|got|received|have|is|are",
        RE.ds, RE.wb, RE.dplus, RE.wb],
       [RE.wb, RE.grp "i see|i notice|i notice that|there is|there are", RE.ds,
        RE.wb, RE.grp "only|just|merely", RE.ds, RE.wb, RE.dplus, RE.wb],
       [RE.wb, RE.grp "quantity|amount|number", RE.ds, RE.wb,
        RE.grp "wrong|incorrect|not right|not correct|doesn\x27?t match|does not match", RE.wb],
       [RE.wb, RE.grp "there is|there\x27?s|there are", RE.ds, RE.wb,
        RE.grp "no|not", RE.ds, RE.wb, RE.grp "in|from|with", RE.ds, RE.wb,
        RE.grp "my|the", RE.ds, RE.wb, RE.grp "order|delivery", RE.wb],
       [RE.wb, RE.grp "in|from|with", RE.ds, RE.wb, RE.grp "my|the", RE.ds,
        RE.wb, RE.grp "order|delivery", RE.ds, RE.wb,
        RE.grp "there is|there\x27?s|there are", RE.ds, RE.wb, RE.grp "no|not",
        RE.wb],
       [RE.wb, RE.grp "not|no", RE.ds, RE.wb, RE.grp "in|from|with", RE.ds,
        RE.wb, RE.grp "my|the", RE.ds, RE.wb, RE.grp "order|delivery", RE.wb],
       [RE.wb, RE.grp "my|the", RE.ds, RE.wb, RE.grp "order|delivery", RE.ds,
        RE.wb, RE.grp "doesn\x27?t|does not|has no|have no|is missing|are missing", RE.wb],
       [RE.wb, RE.grp "there is|there\x27?s", RE.ds, RE.wb, RE.grp "no|not",
        RE.ds, RE.wb, RE.grp "product|item|thing", RE.wb]]),
     ("fi",
      [RE.wpat "puuttuu|puuttui|ei tullut|ei saapunut|väärä|vahingoittunut|rikki|viallinen|ongelma|valitus",
       [RE.wb, RE.grp "tuote|tilaus|toimitus", RE.ds, RE.wb,
        RE.grp "puuttuu|väärä|vahingoittunut|rikki|ei täällä|ei toimitettu", RE.wb],
       [RE.wb, RE.grp "minulla on|siellä on", RE.ds, RE.wb,
        RE.grp "ongelma|valitus", RE.wb]]),
     ("sv",
      [RE.wpat "saknas|saknades|fick inte|mottog inte|fel|skadad|trasig|defekt|problem|klagomål",
       [RE.wb, RE.grp "produkt|beställning|leverans", RE.ds, RE.wb,
        RE.grp "saknas|fel|skadad|trasig|inte här|inte levererad", RE.wb],
       [RE.wb, RE.grp "det finns|jag har", RE.ds, RE.wb,
        RE.grp "problem|klagomål", RE.wb]])]),
   ("confirm_delivery",
    [("en",
      [RE.wpat "received|got it|arrived|delivered|everything is|all good|all here|complete|perfect|thank you",
       [RE.wb, RE.grp "delivery|order", RE.ds, RE.wb,
        RE.grp "received|arrived|here|complete|good|perfect", RE.wb],
       [RE.wb, RE.grp "everything|all items", RE.ds, RE.wb,
        RE.grp "here|received|arrived|good", RE.wb]]),
     ("fi",
      [RE.wpat "sain|tuli|saapui|toimitettu|kaikki on|kaikki hyvin|valmis|täydellinen|kiitos",
       [RE.wb, RE.grp "toimitus|tilaus", RE.ds, RE.wb,
        RE.grp "saapui|täällä|valmis|hyvä|täydellinen", RE.wb],
       [RE.wb, RE.grp "kaikki|kaikki tuotteet", RE.ds, RE.wb,
        RE.grp "täällä|saapui|hyvä", RE.wb]]),
     ("sv",
      [RE.wpat "mottog|kom|anlände|levererad|allt är|allt bra|komplett|perfekt|tack",
       [RE.wb, RE.grp "leverans|beställning", RE.ds, RE.wb,
        RE.grp "anlände|här|komplett|bra|perfekt", RE.wb],
       [RE.wb, RE.grp "allt|alla produkter", RE.ds, RE.wb,
        RE.grp "här|anlände|bra", RE.wb]])]),
   ("query_order_status",
    [("en",
      [[RE.wb, RE.grp "status|where is|when will|track|tracking|location|when|where",
        RE.wb, RE.ds, RE.wb, RE.grp "order|delivery|package|shipment", RE.wb],
       [RE.wb, RE.grp "what|when|where", RE.ds, RE.wb,
        RE.grp "order|delivery|package", RE.wb],
       RE.wpat "is my|check my|my order|order status",
       [RE.wb, RE.grp "i need|i want|i have to", RE.ds, RE.wb,
        RE.grp "get|receive|have", RE.ds, RE.wb, RE.grp "it|order|delivery", RE.wb]]),
     ("fi",
      [[RE.wb, RE.grp "tila|missä on|milloin|seuranta|sijainti|milloin|missä",
        RE.wb, RE.ds, RE.wb, RE.grp "tilaus|toimitus|paketti", RE.wb],
       [RE.wb, RE.grp "mikä|milloin|missä", RE.ds, RE.wb,
        RE.grp "tilaus|toimitus", RE.wb],
       RE.wpat "minun tilaus|tilauksen tila|tarkista tilaus"]),
     ("sv",
      [[RE.wb, RE.grp "status|var är|när kommer|spårning|plats|när|var", RE.wb,
        RE.ds, RE.wb, RE.grp "beställning|leverans|paket", RE.wb],
       [RE.wb, RE.grp "vad|när|var", RE.ds, RE.wb,
        RE.grp "beställning|leverans", RE.wb],
       RE.wpat "min beställning|beställningsstatus|kolla beställning"])]),
   ("provide_feedback",
    [("en",
      [RE.wpat "feedback|review|rating|rate|comment|opinion|suggestion|improve",
       RE.wpat "how was|how did|what do you think|tell us|let us know",
       [RE.wb, RE.grp "i want to|i\x27?d like to", RE.ds, RE.wb,
        RE.grp "give|provide|leave", RE.ds, RE.wb,
        RE.grp "feedback|review|comment", RE.wb]]),
     ("fi",
      [RE.wpat "palautetta|arvostelu|arvio|kommentti|mielipide|ehdotus|parantaa",
       RE.wpat "miten|mitä mieltä|kerro meille|kerro meille",
       [RE.wb, RE.grp "haluan|haluaisin", RE.ds, RE.wb,
        RE.grp "antaa|jättää", RE.ds, RE.wb,
        RE.grp "palautetta|arvostelua|kommenttia", RE.wb]]),
     ("sv",
      [RE.wpat "feedback|recension|betyg|kommentar|åsikt|förslag|förbättra",
       RE.wpat "hur var|hur gick|vad tycker du|berätta|låt oss veta",
       [RE.wb, RE.grp "jag vill|jag skulle vilja", RE.ds, RE.wb,
        RE.grp "ge|lämna", RE.ds, RE.wb,
        RE.grp "feedback|recension|kommentar", RE.wb]])]),
   ("greeting",
    [("en",
      [[RE.wb, RE.Rx.bos, RE.grp "hello|hi|hey|good morning|good afternoon|good evening|greetings", RE.wb],
       [RE.wb, RE.grp "hello|hi|hey", RE.wb, RE.ds, RE.wb,
        RE.grp "there|you", RE.wb]]),
     ("fi",
      [[RE.wb, RE.Rx.bos, RE.grp "hei|moi|terve|hyvää päivää|päivää|iltaa", RE.wb],
       [RE.wb, RE.grp "hei|moi|terve", RE.wb, RE.ds, RE.wb,
        RE.grp "siellä|sinä", RE.wb]]),
     ("sv",
      [[RE.wb, RE.Rx.bos, RE.grp "hej|hallå|god morgon|god eftermiddag|god kväll|hälsningar", RE.wb],
       [RE.wb, RE.grp "hej|hallå", RE.wb, RE.ds, RE.wb,
        RE.grp "där|du", RE.wb]])]),
   ("query_substitution",
    [("en",
      [[RE.wb, RE.grp "what|which|tell me about", RE.ds, RE.wb,
        RE.grp "replacement|substitute|alternative|substitution", RE.wb],
       [RE.wb, RE.grp "what did you|what are you", RE.ds, RE.wb,
        RE.grp "suggest|propose|recommend|offer", RE.wb],
       RE.wpat "what.*replacement|which.*substitute|what.*alternative",
       [RE.wb, RE.grp "tell me|show me|what is", RE.ds, RE.wb,
        RE.grp "the replacement|the substitute|the alternative", RE.wb]]),
     ("fi",
      [[RE.wb, RE.grp "mikä|mitä|kerro", RE.ds, RE.wb,
        RE.grp "korvaus|vaihtoehto|korvaava", RE.wb],
       [RE.wb, RE.grp "mikä on|mitä on", RE.ds, RE.wb,
        RE.grp "korvaus|vaihtoehto", RE.wb],
       [RE.wb, RE.grp "kerro|näytä", RE.ds, RE.wb,
        RE.grp "korvaus|vaihtoehto", RE.wb]]),
     ("sv",
      [[RE.wb, RE.grp "vad|vilken|berätta", RE.ds, RE.wb,
        RE.grp "ersättning|alternativ|ersättare", RE.wb],
       [RE.wb, RE.grp "vad är|vilken är", RE.ds, RE.wb,
        RE.grp "ersättning|alternativ", RE.wb],
       [RE.wb, RE.grp "berätta|visa", RE.ds, RE.wb,
        RE.grp "ersättning|alternativ", RE.wb]])]),
   ("thank_you",
    [("en",
      [RE.wpat "thank you|thanks|thank|appreciate|appreciated|much appreciated|grateful",
       RE.wpat "thanks a lot|thank you very much|thank you so much",
       RE.wpat "i appreciate|i\x27m grateful|many thanks"]),
     ("fi",
      [RE.wpat "kiitos|kiitoksia|kiitän|kiitoksia paljon|paljon kiitoksia",
       RE.wpat "kiitos avusta|kiitos paljon"]),
     ("sv",
      [RE.wpat "tack|tack så mycket|tusen tack|tackar",
       RE.wpat "jag tackar|tack för hjälpen"])]),
   ("change_delivery",
    [("en",
      [[RE.wb, RE.grp "change|modify|reschedule|move|shift", RE.ds, RE.wb,
        RE.grp "delivery|deliver|delivery time|delivery date|delivery address", RE.wb],
       [RE.wb, RE.grp "different|another|new", RE.ds, RE.wb,
        RE.grp "time|date|address|location|place", RE.wb, RE.ds, RE.wb,
        RE.grp "delivery|deliver", RE.wb],
       [RE.wb, RE.grp "can i|can you|i want to|i need to|i have to", RE.ds,
        RE.wb, RE.grp "change|reschedule|modify|get|receive", RE.ds, RE.wb,
        RE.grp "delivery|deliver|it|order", RE.wb],
       [RE.wb, RE.grp "deliver|delivery", RE.ds, RE.wb, RE.grp "to|at|on",
        RE.ds, RE.wb, RE.grp "different|another|new", RE.wb],
       [RE.wb, RE.grp "i need|i want|i have to", RE.ds, RE.wb,
        RE.grp "get|receive|have", RE.ds, RE.wb, RE.grp "it|order|delivery",
        RE.ds, RE.wb,
        RE.grp "tomorrow|today|monday|tuesday|wednesday|thursday|friday|saturday|sunday", RE.wb],
       [RE.wb, RE.grp "need|want|have to", RE.ds, RE.wb,
        RE.grp "it|order|delivery", RE.ds, RE.wb, RE.grp "tomorrow|today|by|on|at", RE.wb]]),
     ("fi",
      [[RE.wb, RE.grp "muuta|vaihda|siirrä|uudelleen", RE.ds, RE.wb,
        RE.grp "toimitus|toimitusaika|toimituspäivä|toimitusosoite", RE.wb],
       [RE.wb, RE.grp "eri|toinen|uusi", RE.ds, RE.wb,
        RE.grp "aika|päivä|osoite|paikka", RE.ds, RE.wb,
        RE.grp "toimitus|toimitukselle", RE.wb],
       [RE.wb, RE.grp "voinko|voisitko|haluan|tarvitsen", RE.ds, RE.wb,
        RE.grp "muuttaa|vaihtaa|siirtää", RE.ds, RE.wb, RE.grp "toimitus", RE.wb]]),
     ("sv",
      [[RE.wb, RE.grp "ändra|flytta|omplanera|förändra", RE.ds, RE.wb,
        RE.grp "leverans|leveransdag|leveranstid|leveransadress", RE.wb],
       [RE.wb, RE.grp "annan|ny|annan", RE.ds, RE.wb,
        RE.grp "tid|datum|adress|plats", RE.ds, RE.wb,
        RE.grp "leverans|leverans", RE.wb],
       [RE.wb, RE.grp "kan jag|kan du|jag vill|jag behöver", RE.ds, RE.wb,
        RE.grp "ändra|flytta|omplanera", RE.ds, RE.wb, RE.grp "leverans", RE.wb]])]),
   ("cancel_order",
    [("en",
      [[RE.wb, RE.grp "cancel|stop|canceled|cancelled", RE.ds, RE.wb,
        RE.grp "order|my order|the order|delivery", RE.wb],
       [RE.wb, RE.grp "don\x27?t|do not", RE.ds, RE.wb,
        RE.grp "deliver|send|ship", RE.wb],
       [RE.wb, RE.grp "i want to|i need to|please", RE.ds, RE.wb,
        RE.grp "cancel|stop", RE.ds, RE.wb, RE.grp "order|delivery", RE.wb],
       [RE.wb, RE.grp "cancel|stop|abort", RE.ds, RE.wb,
        RE.grp "it|the order|my order", RE.wb]]),
     ("fi",
      [[RE.wb, RE.grp "peruuta|peru|lopeta", RE.ds, RE.wb,
        RE.grp "tilaus|minun tilaus|tilaukseni|toimitus", RE.wb],
       [RE.wb, RE.grp "älä|ei tarvitse", RE.ds, RE.wb,
        RE.grp "toimita|lähetä", RE.wb],
       [RE.wb, RE.grp "haluan|tarvitsen|voisitko", RE.ds, RE.wb,
        RE.grp "peruuttaa|lopettaa", RE.ds, RE.wb, RE.grp "tilaus|toimitus", RE.wb]]),
     ("sv",
      [[RE.wb, RE.grp "avbryt|stoppa|avbokning", RE.ds, RE.wb,
        RE.grp "beställning|min beställning|leverans", RE.wb],
       RE.wpat "leverera inte|skicka inte",
       [RE.wb, RE.grp "jag vill|jag behöver|kan du", RE.ds, RE.wb,
        RE.grp "avbryta|stoppa", RE.ds, RE.wb,
        RE.grp "beställning|leverans", RE.wb]])]),
   ("query_products",
    [("en",
      [RE.wpat "do you have|do you sell|is available|is in stock|have available",
       [RE.wb, RE.grp "what products|which products|what items|tell me about",
        RE.ds, RE.wb, RE.grp "do you have|are available", RE.wb],
       [RE.wb, RE.grp "product info|product information|tell me about", RE.ds,
        RE.wb, RE.grp "product|item", RE.wb],
       [RE.wb, RE.grp "is|are", RE.ds, RE.wb,
        RE.grp "available|in stock|you have", RE.wb],
       [RE.wb, RE.grp "what|which", RE.ds, RE.wb, RE.grp "products|items",
        RE.ds, RE.wb, RE.grp "do you|are available|can i get", RE.wb]]),
     ("fi",
      [RE.wpat "onko teillä|myyttekö|on saatavilla|on varastossa",
       [RE.wb, RE.grp "mitä tuotteita|mitkä tuotteet|kerro", RE.ds, RE.wb,
        RE.grp "onko|myyttekö|on saatavilla", RE.wb],
       [RE.wb, RE.grp "tuotetiedot|tuotteen tiedot|kerro", RE.ds, RE.wb,
        RE.grp "tuotteesta|tuotteesta", RE.wb],
       [RE.wb, RE.grp "onko|ovatko", RE.ds, RE.wb,
        RE.grp "saatavilla|varastossa|teillä", RE.wb]]),
     ("sv",
      [RE.wpat "har ni|säljer ni|finns|är tillgänglig|är i lager",
       [RE.wb, RE.grp "vilka produkter|vilka varor|berätta", RE.ds, RE.wb,
        RE.grp "har ni|finns|är tillgängliga", RE.wb],
       [RE.wb, RE.grp "produktinfo|produktinformation|berätta", RE.ds, RE.wb,
        RE.grp "om produkt|om varan", RE.wb],
       [RE.wb, RE.grp "finns|är", RE.ds, RE.wb,
        RE.grp "tillgänglig|i lager|har ni", RE.wb]])])]

/-- The 13 fixed intents, in `INTENT_PATTERNS` dictionary order. -/
def intentNames : List String := intentPatterns.map (fun p => p.1)

/-- The fixed 14-name vocabulary of the specification. -/
def vocab14 : List String := intentNames ++ ["unknown"]

end IC

namespace IC

/-- The negation word table of `IntentClassifier._has_negation`. -/
def negationWords : List (String × List String) :=
  [("en", ["no", "not", "don\x27t", "doesn\x27t", "didn\x27t", "won\x27t",
           "can\x27t", "couldn\x27t", "shouldn\x27t", "wouldn\x27t", "isn\x27t",
           "aren\x27t", "wasn\x27t", "weren\x27t", "never", "nothing", "nobody"]),
   ("fi", ["ei", "en", "et", "emme", "ette", "eivät", "ei ole", "ei ollut",
           "ei koskaan"]),
   ("sv", ["inte", "ej", "aldrig", "ingenting", "ingen", "är inte", "var inte"])]

/-- `IntentClassifier._has_negation`: plain substring containment of any
negation word of the language (falling back to the English list). -/
def hasNegation (textLower lang : String) : Bool :=
  let words := (alookup lang negationWords).getD
    ((alookup "en" negationWords).getD [])
  words.any (fun w => containsSub w textLower)

/-- The pattern list used for an intent: the detected language's list,
falling back to English. -/
def patternsFor (langPats : List (String × List (List RE.Rx)))
    (lang : String) : List (List RE.Rx) :=
  (alookup lang langPats).getD ((alookup "en" langPats).getD [])

/-- The pre-adjustment rule-based score of one intent: for each pattern,
if `findall` is non-empty, add `0.3` per match occurrence and `0.5` more
when `search` also succeeds (it always does then). -/
def baseScore (pats : List (List RE.Rx)) (textLower : String) : Rat :=
  pats.foldl
    (fun sc pat =>
      let n := RE.count pat textLower
      if n ≠ 0 then
        let sc := qadd sc (qmul (q n 1) (q 3 10))
        if RE.searchB pat textLower then qadd sc (q 1 2) else sc
      else sc)
    (q 0 1)

/-- `callback_phrases` used for the request-callback boost and the
report-issue penalty. -/
def callbackPhrases : List String :=
  ["speak to", "talk to", "need to speak", "want to speak", "someone",
   "human", "person", "agent"]

/-- `discrepancy_phrases` for the quantity-discrepancy boost. -/
def discrepancyPhrases : List String :=
  ["only", "not", "should be", "expected", "but got", "but received",
   "instead of", "quantity", "amount", "number"]

/-- `issue_phrases` for the strong report-issue boost. -/
def issuePhrases : List String :=
  ["there is no", "there\x27s no", "there are no", "not in my order",
   "missing from my order", "in my order there is no"]

/-- `time_words` of the delivery-time boost. -/
def timeWords : List String :=
  ["tomorrow", "today", "monday", "tuesday", "wednesday", "thursday",
   "friday", "saturday", "sunday", "next week"]

/-- `need_words` of the delivery-time boost. -/
def needWords : List String :=
  ["need", "want", "have to", "must", "should", "get", "receive"]

/-- `len(re.findall(r'\b\d+\b', text_lower))`. -/
def numbersCount (textLower : String) : Nat :=
  RE.count [RE.wb, RE.Rx.clsPlus RE.isDigit, RE.wb] textLower

/-- The in-loop adjustments applied to an intent's raw score, in source
order (negation, callback boost/penalty, quantity and issue boosts,
in-my-order penalty, time boost). -/
def adjustScore (intent : String) (textLower : String) (hasNeg : Bool)
    (sc0 : Rat) : Rat :=
  let sc := if intent = "confirm_substitution" && hasNeg then qmul sc0 (q 1 10) else sc0
  let sc := if intent = "reject_substitution" && hasNeg then qmul sc (q 3 2) else sc
  let sc :=
    if intent = "request_callback" &&
        callbackPhrases.any (fun p => containsSub p textLower) then
      qmul sc (q 3 2)
    else sc
  let sc :=
    if intent = "report_issue" &&
        callbackPhrases.any (fun p => containsSub p textLower) then
      qmul sc (q 3 10)
    else sc
  let sc :=
    if intent = "report_issue" &&
        discrepancyPhrases.any (fun p => containsSub p textLower) &&
        decide (2 ≤ numbersCount textLower) then
      qmul sc (q 3 2)
    else sc
  let sc :=
    if intent = "report_issue" &&
        issuePhrases.any (fun p => containsSub p textLower) then
      qmul sc (q 2 1)
    else sc
  let sc :=
    if intent = "reject_substitution" &&
        (containsSub "in my order" textLower ||
         containsSub "from my order" textLower) then
      qmul sc (q 3 10)
    else sc
  let sc :=
    if (intent = "change_delivery" || intent = "query_order_status") &&
        timeWords.any (fun w => containsSub w textLower) &&
        needWords.any (fun w => containsSub w textLower) then
      qmul sc (q 7 5)
    else sc
  sc

/-- The `intent_scores` dictionary after the pattern loop: each intent
whose adjusted score is positive, in `INTENT_PATTERNS` order. -/
def rawScores (textLower lang : String) : List (String × Rat) :=
  intentPatterns.foldl
    (fun acc p =>
      let sc := adjustScore p.1 textLower (hasNegation textLower lang)
        (baseScore (patternsFor p.2 lang) textLower)
      if q 0 1 < sc then acc ++ [(p.1, sc)] else acc)
    []

/-- Multiply the value at a key (if present) by a factor, in place. -/
def mulKey (k : String) (fac : Rat) (l : List (String × Rat)) :
    List (String × Rat) :=
  l.map (fun p => if p.1 = k then (p.1, qmul p.2 fac) else p)

/-- Insert a key at the end unless present (Python dict assignment of a
new key under a `not in` guard). -/
def insertIfAbsent (k : String) (v : Rat) (l : List (String × Rat)) :
    List (String × Rat) :=
  if hasKey k l then l else l ++ [(k, v)]

/-- The model of the `context` dictionary: the conversation stage, the
truthiness of `proposed_solution`, and whether `str(context).lower()`
contains `substitution` or `replacement`. -/
structure Context where
  conversationStage : Option String
  proposedSolution : Bool
  mentionsSubstitution : Bool

/-- `conversation_stage = context.get('conversation_stage') if context else None`. -/
def stageOf : Option Context → Option String
  | none => none
  | some c => c.conversationStage

/-- Python truthiness of the stage string. -/
def stageTruthy : Option String → Bool
  | none => false
  | some s => !(s = "")

/-- `issue_indicators` of the post-delivery stage branch. -/
def issueIndicators : List String :=
  ["didn\x27t receive", "did not receive", "not receive", "missing",
   "didn\x27t get", "there is no", "there\x27s no", "not in my order",
   "missing from my order"]

/-- The context-stage adjustments of `classify` (pre-order and
post-delivery branches, plus the legacy substitution boost). -/
def stageAdjust (ctx : Option Context) (textLower : String)
    (scores : List (String × Rat)) : List (String × Rat) :=
  let stage := stageOf ctx
  if stage = some "pre_order_substitution" then
    let scores := mulKey "confirm_substitution" (q 9 5) scores
    let scores := mulKey "reject_substitution" (q 9 5) scores
    let scores := mulKey "query_substitution" (q 3 2) scores
    let scores :=
      if ["yes", "yeah", "yep", "ok", "okay", "sure"].contains (strip textLower) then
        insertIfAbsent "confirm_substitution" (q 7 10) scores
      else scores
    if ["no", "nope", "nah"].contains (strip textLower) then
      insertIfAbsent "reject_substitution" (q 7 10) scores
    else scores
  else if stage = some "post_delivery_investigation" then
    let scores := mulKey "report_issue" (q 9 5) scores
    let scores := mulKey "confirm_delivery" (q 3 2) scores
    let scores := mulKey "query_order_status" (q 3 2) scores
    let scores :=
      if (match ctx with | some c => c.proposedSolution | none => false) then
        mulKey "reject_substitution" (q 3 2)
          (mulKey "confirm_substitution" (q 3 2) scores)
      else scores
    if issueIndicators.any (fun p => containsSub p textLower) then
      if hasKey "report_issue" scores then mulKey "report_issue" (q 3 2) scores
      else scores ++ [("report_issue", q 7 10)]
    else scores
  else
    match ctx with
    | some c =>
      if !(stageTruthy (stageOf ctx)) && c.mentionsSubstitution then
        mulKey "reject_substitution" (q 3 2)
          (mulKey "confirm_substitution" (q 3 2) scores)
      else scores
    | none => scores

/-- Maximum of a value list (used on the non-empty `intent_scores`). -/
def listMax : List Rat → Rat
  | [] => q 0 1
  | v :: rest => rest.foldl max v

/-- Sum of a value list. -/
def listSum (l : List Rat) : Rat := l.foldl qadd (q 0 1)

/-- Python `max(items, key=lambda x: x[1])`: the first item attaining the
maximal value. -/
def argmaxFirst : List (String × Rat) → (String × Rat)
  | [] => ("", q 0 1)
  | p :: rest => rest.foldl (fun best p2 => if best.2 < p2.2 then p2 else best) p

/-- Normalisation and confidence computation of `classify` for a
non-empty score dictionary: returns
(best intent, confidence, normalised scores). -/
def finalize (text : String) (scores : List (String × Rat)) :
    String × Rat × List (String × Rat) :=
  let vals := scores.map (fun p => p.2)
  let maxScore := listMax vals
  let total := listSum vals
  let normScores := scores.map (fun p => (p.1, qdiv p.2 (max maxScore (q 1 1))))
  let best := argmaxFirst normScores
  let baseConf := best.2
  let dom :=
    if q 0 1 < total then qdiv baseConf (max (qdiv total maxScore) (q 1 1))
    else baseConf
  let words := (pySplit text).length
  let vague := if words ≤ 4 then q 17 20 else q 1 1
  let vague := if 1 < scores.length then qmul vague (q 9 10) else vague
  let conf := max (min (qmul (qmul baseConf dom) vague) (q 19 20)) (q 1 2)
  (best.1, conf, normScores)

/-- The 13 intents of `intent_examples.py` in dictionary order (the
`unknown` key is skipped by the semantic classifier). -/
def semanticIntents : List String :=
  ["confirm_substitution", "reject_substitution", "request_callback",
   "report_issue", "confirm_delivery", "query_order_status",
   "query_substitution", "thank_you", "change_delivery", "cancel_order",
   "query_products", "provide_feedback", "greeting"]

/-- Stable descending insertion by value (Python `sorted(…, reverse=True)`). -/
def insertDesc (p : String × Rat) : List (String × Rat) → List (String × Rat)
  | [] => [p]
  | p2 :: rest => if p2.2 < p.2 then p :: p2 :: rest else p2 :: insertDesc p rest

/-- Stable descending sort by value. -/
def sortDesc : List (String × Rat) → List (String × Rat)
  | [] => []
  | p :: rest => insertDesc p (sortDesc rest)

/-- `SemanticIntentClassifier.classify`: each intent's maximal cosine
similarity comes from the oracle `sims` (`none` models missing vectors);
scores are clamped to `[0, 1]`, sorted descending, and the top `k` kept. -/
def semClassify (sims : String → Option Rat) (text : String) (topK : Nat) :
    List (String × Rat) :=
  if strip text = "" then []
  else
    let scored := semanticIntents.filterMap
      (fun i => (sims i).map (fun s => (i, max (q 0 1) (min (q 1 1) s))))
    (sortDesc scored).take topK

/-- `nlu.semantic_threshold` default. -/
def semThreshold : Rat := q 1 2

/-- `nlu.semantic_weight` default. -/
def semWeight : Rat := q 4 5

/-- The rule-based result triple (intent, confidence, normalised scores)
before the semantic fallback. -/
def ruleResult (text lang : String) (ctx : Option Context) :
    String × Rat × List (String × Rat) :=
  let textLower := lowerStr text
  let scores := stageAdjust ctx textLower (rawScores textLower lang)
  match scores with
  | [] => ("unknown", q 3 10, [])
  | _ :: _ => finalize text scores

/-- The semantic-fallback combination of `classify`, applied to the
rule-based triple (intent, confidence, normalised scores). -/
def combineSem (semAvail : Bool) (sims : String → Option Rat) (text : String)
    (r : String × Rat × List (String × Rat)) : String × Rat :=
  let rIntent := r.1
  let rConf := r.2.1
  let rScores := r.2.2
  if semAvail && (rConf < semThreshold || rIntent = "unknown") then
    match semClassify sims text 3 with
    | [] => (rIntent, rConf)
    | (si, ss) :: _ =>
      let w := qmul ss semWeight
      if !(rIntent = "unknown") && hasKey rIntent rScores then
        let rsc := (alookup rIntent rScores).getD (q 0 1)
        if qmul rsc (q 6 5) < w then (si, min w (q 19 20))
        else (rIntent, min (max rsc w) (q 19 20))
      else (si, min w (q 19 20))
  else (rIntent, rConf)

/-- `IntentClassifier.classify`.  `semAvail` models the availability of
the semantic classifier (scikit-learn import, config flag and loaded
vectoriser); `sims` its similarity oracle. -/
def classify (semAvail : Bool) (sims : String → Option Rat)
    (text lang : String) (ctx : Option Context) : String × Rat :=
  if text = "" then ("unknown", q 0 1)
  else combineSem semAvail sims text (ruleResult text lang ctx)

end IC

namespace EE

/-!  Embedding of `NLU/entity_extractor.py` (`EntityExtractor`): the
pattern-based sentiment extraction and the product extraction.  The
optional TextBlob / rapidfuzz third-party helpers are not part of the
repository; fuzzy-match results enter as an oracle list, and the claims
below concern the pattern-based sentiment path. -/

/-- `negation_patterns` of `EntityExtractor`. -/
def negationPatterns : List (String × List (List RE.Rx)) :=
  [("en",
    [RE.wpat "no|not|don\x27?t|doesn\x27?t|didn\x27?t|won\x27?t|can\x27?t|couldn\x27?t|shouldn\x27?t|wouldn\x27?t|isn\x27?t|aren\x27?t|wasn\x27?t|weren\x27?t",
     RE.wpat "never|nothing|nobody|nowhere|neither|nor"]),
   ("fi",
    [RE.wpat "ei|en|et|emme|ette|eivät|ei ole|ei ollut",
     RE.wpat "ei koskaan|ei mitään|ei kukaan"]),
   ("sv",
    [RE.wpat "inte|ej|aldrig|ingenting|ingen",
     RE.wpat "är inte|var inte|skulle inte"])]

/-- `EntityExtractor._has_negation`: regex search of the language's
negation patterns over the lowercased text. -/
def hasNegation (text lang : String) : Bool :=
  let tl := IC.lowerStr text
  ((IC.alookup lang negationPatterns).getD
    ((IC.alookup "en" negationPatterns).getD [])).any
    (fun pat => RE.searchB pat tl)

/-- `positive_words` of `_extract_sentiment_patterns`. -/
def positiveWords : List (String × List String) :=
  [("en",
    ["yes", "yeah", "yep", "good", "great", "excellent", "perfect",
     "wonderful", "amazing", "thanks", "thank you", "thank", "appreciate",
     "agree", "agreed", "accept", "accepted", "fine", "ok", "okay", "sure",
     "love", "liked", "happy", "pleased", "satisfied", "received",
     "everything", "all good", "works", "sounds good", "please send",
     "please do", "go ahead", "proceed", "that works", "sounds good",
     "i\x27ll take", "i will take", "i want", "i\x27d like", "i would like",
     "send it", "send me", "give me"]),
   ("fi", ["kyllä", "joo", "hyvä", "erinomainen", "kiitos", "sopii", "okei",
           "hyväksyn"]),
   ("sv", ["ja", "bra", "utmärkt", "tack", "okej", "acceptera", "godkänd"])]

/-- `negative_words` of `_extract_sentiment_patterns`. -/
def negativeWords : List (String × List String) :=
  [("en",
    ["no", "nope", "nah", "bad", "terrible", "awful", "horrible", "wrong",
     "missing", "problem", "issue", "complaint", "reject", "refuse",
     "decline", "don\x27t", "won\x27t", "can\x27t", "disappointed", "angry",
     "upset", "frustrated", "unhappy", "not interested", "not good"]),
   ("fi", ["ei", "huono", "ongelma", "valitus", "hylkään", "kieltäydyn"]),
   ("sv", ["nej", "dålig", "problem", "klagomål", "avvisa"])]

/-- `positive_phrases` of `_extract_sentiment_patterns`. -/
def positivePhrases : List (String × List String) :=
  [("en",
    ["i accept", "i agree", "that works", "sounds good", "go ahead",
     "all good", "thank you", "please send", "please do", "send it",
     "send me", "give me", "yes please", "yes i\x27ll", "yes i will",
     "i\x27ll take", "i will take", "i want", "i\x27d like", "i would like"]),
   ("fi", ["sama käy", "sopii mulle", "lähetä", "ota se"]),
   ("sv", ["det fungerar", "det låter bra", "skicka", "ge mig", "jag tar"])]

/-- `negative_phrases` of `_extract_sentiment_patterns`. -/
def negativePhrases : List (String × List String) :=
  [("en", ["don\x27t want", "don\x27t need", "don\x27t like", "don\x27t accept",
           "no thanks", "not interested"]),
   ("fi", ["en halua", "ei kiitos"]),
   ("sv", ["vill inte", "inte intresserad"])]

/-- `r'\b' + re.escape(word) + r'\b'` search. -/
def wordSearch (w : String) (tl : String) : Bool :=
  RE.searchB [RE.wb, RE.Rx.lit w.data, RE.wb] tl

/-- The question starters of `_extract_sentiment_patterns` /
`_extract_sentiment`. -/
def questionStarters : List String :=
  ["do you", "can you", "will you", "are you", "is it", "is there", "what",
   "when", "where", "how", "why", "which"]

/-- Question detection: the stripped lowercased text ends with `?`, or the
lowercased text starts with an interrogative. -/
def isQuestion (tl : String) : Bool :=
  ((IC.strip tl).data.getLast? = some '?') ||
  questionStarters.any (fun qs => qs.data.isPrefixOf tl.data)

/-- `cancel_words`. -/
def cancelWords : List String :=
  ["cancel", "stop", "remove", "delete", "refund", "return", "reject",
   "decline", "refuse"]

/-- The word/phrase counts of `_extract_sentiment_patterns` before the
negation and cancel adjustments. -/
def rawCounts (text lang : String) : Nat × Nat :=
  let tl := IC.lowerStr text
  let pw := (IC.alookup lang positiveWords).getD
    ((IC.alookup "en" positiveWords).getD [])
  let nw := (IC.alookup lang negativeWords).getD
    ((IC.alookup "en" negativeWords).getD [])
  let pp := (IC.alookup lang positivePhrases).getD
    ((IC.alookup "en" positivePhrases).getD [])
  let np := (IC.alookup lang negativePhrases).getD
    ((IC.alookup "en" negativePhrases).getD [])
  let pc := pw.countP (fun w => wordSearch w tl) +
    2 * pp.countP (fun p => IC.containsSub p tl)
  let nc := nw.countP (fun w => wordSearch w tl) +
    2 * np.countP (fun p => IC.containsSub p tl)
  (pc, nc)

/-- The counts after the negation and cancel-word adjustments (the values
inspected by the question check). -/
def adjustedCounts (text lang : String) : Nat × Nat :=
  let tl := IC.lowerStr text
  let c0 := rawCounts text lang
  let hasNeg := hasNegation text lang
  let hasCan := cancelWords.any (fun w => IC.containsSub w tl)
  let c1 :=
    if hasNeg then
      if 0 < c0.1 then (0, c0.2 + c0.1)
      else if c0.2 = 0 then (c0.1, 1)
      else c0
    else c0
  if hasCan && 0 < c1.1 then (0, c1.2 + c1.1) else c1

/-- A sentiment entity (`polarity`, `confidence`, `method`). -/
structure SentimentR where
  polarity : String
  confidence : Rat
  method : String
deriving DecidableEq

/-- `EntityExtractor._extract_sentiment_patterns`. -/
def extractSentimentPatterns (text lang : String) (intent : Option String) :
    SentimentR :=
  let tl := IC.lowerStr text
  let c := adjustedCounts text lang
  let pc := c.1
  let nc := c.2
  let isQ := isQuestion tl
  if isQ && !(2 < nc || 2 < pc) then
    ⟨"neutral", q 1 2, "pattern"⟩
  else if (intent = some "request_callback" || intent = some "query_order_status" ||
      intent = some "query_products" || intent = some "query_substitution") &&
      nc ≤ 1 && pc ≤ 1 then
    ⟨"neutral", q 1 2, "pattern+context"⟩
  else if intent = some "report_issue" then
    ⟨"negative", max (q 3 5) (min (qadd (q 2 5) (qmul (q nc 1) (q 3 20))) (q 19 20)),
     "pattern+context"⟩
  else if pc < nc && 0 < nc then
    ⟨"negative", min (qadd (q 2 5) (qmul (q nc 1) (q 3 20))) (q 19 20), "pattern"⟩
  else if nc < pc && 0 < pc then
    ⟨"positive", min (qadd (q 2 5) (qmul (q pc 1) (q 3 20))) (q 19 20), "pattern"⟩
  else ⟨"neutral", q 1 2, "pattern"⟩

/-- A catalog product (`name`, `name_variants`, `gtin`). -/
structure Product where
  name : Option String
  nameVariants : List String
  gtin : Option String

/-- An extracted product entity. -/
structure PEntity where
  name : Option String
  gtin : Option String
  confidence : Rat
deriving DecidableEq

/-- The dedup key `(product.get('gtin'), product.get('name'))`. -/
def pkey (p : PEntity) : Option String × Option String := (p.gtin, p.name)

/-- ASCII upper-case letter (`[A-Z]`). -/
def isUpper (c : Char) : Bool := 'A' ≤ c && c ≤ 'Z'

/-- ASCII lower-case letter (`[a-z]`). -/
def isLower (c : Char) : Bool := 'a' ≤ c && c ≤ 'z'

/-- `r'\b([A-Z][a-z]+(?:\s+[A-Z][a-z]+)*)\b'`. -/
def capPattern : List RE.Rx :=
  [RE.wb,
   RE.Rx.grp [[RE.Rx.cls isUpper, RE.Rx.clsPlus isLower,
     RE.Rx.starGrp [RE.Rx.clsPlus RE.isSpace, RE.Rx.cls isUpper,
       RE.Rx.clsPlus isLower]]],
   RE.wb]

/-- The no-catalog heuristic of `_extract_products`: up to three
capitalized sequences of at most four words, confidence `0.3`, no GTIN. -/
def capProducts (text : String) : List PEntity :=
  ((RE.strings capPattern text).take 3).filterMap
    (fun w =>
      if (IC.pySplit w).length ≤ 4 then some ⟨some w, none, q 3 10⟩ else none)

/-- One catalog product's contribution to the match list: exact name
containment (0.8, skipping the rest), else name-variant containment (0.7)
and/or the 60% word-level partial match (0.5). -/
def productMatches (tl : String) (p : Product) : List PEntity :=
  let pn := IC.lowerStr (p.name.getD "")
  if !(pn = "") && IC.containsSub pn tl then [⟨p.name, p.gtin, q 4 5⟩]
  else
    let fromVariant :=
      if p.nameVariants.any (fun v => IC.containsSub (IC.lowerStr v) tl) then
        [⟨p.name, p.gtin, q 7 10⟩]
      else []
    let ws := IC.pySplit pn
    let partial_ :=
      if 1 < ws.length &&
          qmul (q ws.length 1) (q 3 5) ≤
            q (ws.countP (fun w => IC.containsSub w tl)) 1 then
        [⟨p.name, p.gtin, q 1 2⟩]
      else []
    fromVariant ++ partial_

/-- Boost and move to the front the first product matching the proposed
substitute; `none` when no product matches. -/
def boostFirst (pl : String) : List PEntity → Option (List PEntity)
  | [] => none
  | p :: rest =>
    if IC.lowerStr (p.name.getD "") = pl ||
        IC.containsSub pl (IC.lowerStr (p.name.getD "")) then
      some ({ p with confidence := min (q 1 1) (qmul p.confidence (q 13 10)) } :: rest)
    else
      match boostFirst pl rest with
      | some l => match l with
        | b :: l2 => some (b :: p :: l2)
        | [] => none
      | none => none

/-- Deduplication by `(gtin, name)`, keeping first occurrences. -/
def dedupBy (seen : List (Option String × Option String)) :
    List PEntity → List PEntity
  | [] => []
  | p :: rest =>
    if seen.contains (pkey p) then dedupBy seen rest
    else p :: dedupBy (pkey p :: seen) rest

/-- `EntityExtractor._extract_products`.  `fuzzyAvail` and `fuzzyResults`
model the optional rapidfuzz matches; `maxFuzzyResults` is
`product_matching.max_fuzzy_results` (default 5). -/
def extractProducts (fuzzyAvail : Bool) (fuzzyResults : List PEntity)
    (text : String) (proposedSubstitute : Option String)
    (catalog : List Product) (maxFuzzyResults : Nat) : List PEntity :=
  let tl := IC.lowerStr text
  if catalog.isEmpty then capProducts text
  else
    let products := catalog.foldl (fun acc p => acc ++ productMatches tl p) []
    let products :=
      if fuzzyAvail && products.length < 3 then
        let existing := products.map (fun p => IC.lowerStr (p.name.getD ""))
        products ++ fuzzyResults.filter
          (fun fp => !(existing.contains (IC.lowerStr (fp.name.getD ""))))
      else products
    let products :=
      match proposedSubstitute with
      | some ps =>
        if !(ps = "") then
          match boostFirst (IC.lowerStr ps) products with
          | some l => l
          | none => products
        else products
      | none => products
    (dedupBy [] products).take maxFuzzyResults

/-- The question-neutral early return of `_extract_sentiment_patterns`
fires: the text is a question and neither adjusted count exceeds 2. -/
def questionNeutralFires (text lang : String) : Bool :=
  isQuestion (IC.lowerStr text) &&
    !(2 < (adjustedCounts text lang).2 || 2 < (adjustedCounts text lang).1)

end EE

namespace LD

/-!  Embedding of `NLU/language_detector.py` (`LanguageDetector.detect`).
The characters of `FINNISH_CHARS` / `SWEDISH_CHARS` are copied as they
appear in the source file. -/

/-- `LANGUAGE_INDICATORS`. -/
def langIndicators : List (String × List (List RE.Rx)) :=
  [("en",
    [RE.wpat "yes|no|ok|okay|accept|reject|confirm|decline|hello|hi|thanks|thank you|please|sorry|problem|issue|delivery|order|status|feedback",
     RE.wpat "that|this|would|could|should|will|can|want|need|like"]),
   ("fi",
    [RE.wpat "kyllГӨ|ei|okei|hyvГӨksy|hylkГӨГӨ|vahvista|kiitos|hei|moi|anteeksi|ongelma|toimitus|tilaus|tila|palautetta",
     RE.wpat "se|tГӨmГӨ|tuo|voisi|voisit|haluan|tarvitsen|pitГӨisi"]),
   ("sv",
    [RE.wpat "ja|nej|okej|acceptera|avvisa|bekrГӨfta|tack|hej|hejdГҘ|ursГӨkta|problem|leverans|bestГӨllning|status|feedback",
     RE.wpat "det|den|skulle|kunde|vill|behГ¶ver|gillar"])]

/-- `FINNISH_CHARS` character class. -/
def finnishChars : List Char := ['Г', 'Ө', 'Г', '¶', 'Г', 'Ҙ', 'Г', '„', 'Г', '–', 'Г', '…']

/-- `SWEDISH_CHARS` character class. -/
def swedishChars : List Char := ['Г', 'Ҙ', 'Г', 'Ө', 'Г', '¶', 'Г', '…', 'Г', '„', 'Г', '–']

/-- One language's indicator score: `0.5` per `findall` occurrence,
plus the character-class bonus of `2.0` for `fi` / `sv`. -/
def langScore (text : String) (lang : String) : Rat :=
  let tl := IC.lowerStr text
  let base :=
    ((IC.alookup lang langIndicators).getD []).foldl
      (fun sc pat => qadd sc (qmul (q (RE.count pat tl) 1) (q 1 2))) (q 0 1)
  let bonus :=
    if lang = "fi" && text.data.any (fun c => finnishChars.contains c) then q 2 1
    else if lang = "sv" && text.data.any (fun c => swedishChars.contains c) then q 2 1
    else q 0 1
  qadd base bonus

/-- The normalised score dictionary of `detect`, in `{en, fi, sv}` order. -/
def detectScores (text : String) : List (String × Rat) :=
  let tlen := (IC.pySplit text).length
  (["en", "fi", "sv"].map (fun lang => (lang, langScore text lang))).map
    (fun p =>
      if 0 < tlen then (p.1, qdiv p.2 (max (q tlen 1) (q 1 1))) else p)

/-- `LanguageDetector.detect`. -/
def detect (text : String) : String :=
  if text = "" then "en"
  else
    let scores := detectScores text
    let best := IC.argmaxFirst scores
    if best.2 < q 1 10 then "en" else best.1

end LD

namespace TN

/-!  Embedding of `NLU/text_normalizer.py` (`TextNormalizer.normalize`).
`re.sub` for the word tables is embedded as a left-to-right scan over the
input; boundaries are judged on the input text, as in Python. -/

/-- Case-insensitively match `pat` as a prefix, returning the last
consumed input character and the rest. -/
def ciPrefix : List Char → Option Char → List Char → Option (Option Char × List Char)
  | [], prev, cs => some (prev, cs)
  | p :: ps, _, c :: cs => if RE.lowEq p c then ciPrefix ps (some c) cs else none
  | _ :: _, _, [] => none

/-- `re.sub` of a literal pattern (optionally `\b`-bounded on each side)
with replacement `repl`, scanning left to right over the input. -/
def subLitAux (bl br : Bool) (pat repl : List Char) :
    Nat → Option Char → List Char → List Char
  | 0, _, cs => cs
  | f + 1, prev, cs =>
    match cs with
    | [] => []
    | c :: rest =>
      match ciPrefix pat prev cs with
      | some (lastC, after) =>
        if (!bl || RE.atBoundary prev cs) && (!br || RE.atBoundary lastC after) then
          repl ++ subLitAux bl br pat repl f lastC after
        else c :: subLitAux bl br pat repl f (some c) rest
      | none => c :: subLitAux bl br pat repl f (some c) rest

/-- `re.sub` of a literal pattern over a string. -/
def subLit (bl br : Bool) (pat repl : String) (text : String) : String :=
  String.mk (subLitAux bl br pat.data repl.data (text.data.length + 1) none text.data)

/-- `FILLER_WORDS`. -/
def fillerWords : List (String × List String) :=
  [("en", ["um", "uh", "er", "ah", "like", "you know", "actually",
           "basically", "literally", "so", "well", "hmm"]),
   ("fi", ["öö", "ää", "tuota", "niin", "siis", "no", "no niin"]),
   ("sv", ["öhm", "eh", "alltså", "liksom", "typ", "va"])]

/-- `TRANSCRIPTION_FIXES['en']` (the only language present). -/
def transcriptionFixes : List (String × String) :=
  [("to", "two"), ("for", "four"), ("hash", "#"), ("number sign", "#"),
   ("pound sign", "#")]

/-- The contraction table of `_normalize_contractions`, in source order. -/
def contractions : List (String × String) :=
  [("don\x27t", "do not"), ("doesn\x27t", "does not"), ("didn\x27t", "did not"),
   ("won\x27t", "will not"), ("can\x27t", "cannot"), ("couldn\x27t", "could not"),
   ("shouldn\x27t", "should not"), ("wouldn\x27t", "would not"),
   ("isn\x27t", "is not"), ("aren\x27t", "are not"), ("wasn\x27t", "was not"),
   ("weren\x27t", "were not"), ("haven\x27t", "have not"),
   ("hasn\x27t", "has not"), ("hadn\x27t", "had not"), ("i\x27m", "i am"),
   ("you\x27re", "you are"), ("we\x27re", "we are"), ("they\x27re", "they are"),
   ("it\x27s", "it is"), ("that\x27s", "that is"), ("what\x27s", "what is"),
   ("i\x27ll", "i will"), ("you\x27ll", "you will"), ("we\x27ll", "we will"),
   ("i\x27d", "i would"), ("you\x27d", "you would"), ("i\x27ve", "i have"),
   ("you\x27ve", "you have")]

/-- `_remove_filler_words`: remove each filler (word-bounded, ignoring
case), falling back to the English list. -/
def removeFillers (lang : String) (text : String) : String :=
  ((IC.alookup lang fillerWords).getD
    ((IC.alookup "en" fillerWords).getD [])).foldl
    (fun t w => subLit true true w "" t) text

/-- `_normalize_contractions` (English only; plain substring patterns). -/
def normContractions (lang : String) (text : String) : String :=
  if lang = "en" then
    contractions.foldl (fun t pr => subLit false false pr.1 pr.2 t) text
  else text

/-- `_fix_transcription_errors` (English only; word-bounded patterns). -/
def fixTranscription (lang : String) (text : String) : String :=
  if lang = "en" then
    transcriptionFixes.foldl (fun t pr => subLit true true pr.1 pr.2 t) text
  else text

/-- `re.sub(r'\s+', ' ', …)`: collapse whitespace runs to single spaces. -/
def collapseAux : Bool → List Char → List Char
  | _, [] => []
  | prevSp, c :: rest =>
    if RE.isSpace c then
      if prevSp then collapseAux true rest
      else ' ' :: collapseAux true rest
    else c :: collapseAux false rest

/-- Whitespace collapapse on strings. -/
def collapse (s : String) : String := String.mk (collapseAux false s.data)

/-- `str.strip()` (shared with the classifier's helper). -/
def stripWs (s : String) : String := IC.strip s

/-- `TextNormalizer.normalize`. -/
def normalize (text : String) (lang : String) : String :=
  if text = "" then text
  else
    let t := collapse (stripWs text)
    let t := removeFillers lang t
    let t := normContractions lang t
    let t := fixTranscription lang t
    stripWs (collapse t)

end TN

namespace IC

/-- Total number of `findall` occurrences over a pattern list. -/
def totalMatches (pats : List (List RE.Rx)) (t : String) : Nat :=
  (pats.map (fun p => RE.count p t)).sum

/-- Number of patterns with at least one occurrence. -/
def matchingPats (pats : List (List RE.Rx)) (t : String) : Nat :=
  pats.countP (fun p => RE.count p t != 0)

/-- The score formula as the specification words it: `0.3` per match
occurrence plus a single `0.5` bonus if any pattern matches at all
(to be compared against `baseScore`, which follows the code). -/
def specBaseScore (pats : List (List RE.Rx)) (t : String) : Rat :=
  qadd (qmul (q (totalMatches pats t) 1) (q 3 10))
    (if pats.any (fun p => RE.searchB p t) then q 1 2 else q 0 1)

/-- No intent pattern (for this language, after the English fallback)
matches the text. -/
def noPatternMatch (textLower lang : String) : Bool :=
  intentPatterns.all (fun p =>
    (patternsFor p.2 lang).all (fun pat => !(RE.searchB pat textLower)))

/-- Whether one of the conversation-stage fallback insertions of
`classify` applies (bare yes/no at the pre-order stage, or an issue
indicator at the post-delivery stage). -/
def stageInsertApplies (ctx : Option Context) (textLower : String) : Bool :=
  (stageOf ctx = some "pre_order_substitution" &&
    (["yes", "yeah", "yep", "ok", "okay", "sure"].contains (strip textLower) ||
     ["no", "nope", "nah"].contains (strip textLower))) ||
  (stageOf ctx = some "post_delivery_investigation" &&
    issueIndicators.any (fun p => containsSub p textLower))

/-- The English pattern list of `confirm_substitution` (used by concrete
evaluations below). -/
def confirmEnPats : List (List RE.Rx) :=
  patternsFor ((alookup "confirm_substitution" intentPatterns).getD []) "en"

end IC

namespace TN

/-- All whitespace characters of the list are plain spaces. -/
def allSp (l : List Char) : Prop :=
  ∀ c ∈ l, RE.isSpace c = true → c = ' '

/-- No two adjacent plain spaces. -/
def chainOk : List Char → Prop
  | [] => True
  | [_] => True
  | a :: b :: r => ¬(a = ' ' ∧ b = ' ') ∧ chainOk (b :: r)

/-- The list does not start with whitespace. -/
def noLead : List Char → Prop
  | [] => True
  | c :: _ => RE.isSpace c = false

/-- The list does not end with whitespace. -/
def noTrail (l : List Char) : Prop := noLead l.reverse

end TN

/-!  ## Theorems

The bridge lemmas relating the kernel-reducible rational operations to
Mathlib's field structure, the supporting lemmas about the embedded
definitions, and the claim theorems C1-C10 with their counterexamples
and witnesses. -/

theorem qadd_eq (a b : Rat) : qadd a b = a + b := by
  have ha : ((a.den : ℚ)) ≠ 0 := Nat.cast_ne_zero.mpr a.den_nz
  have hb : ((b.den : ℚ)) ≠ 0 := Nat.cast_ne_zero.mpr b.den_nz
  unfold qadd
  rw [Rat.mkRat_eq_div]
  push_cast
  conv_rhs => rw [← Rat.num_div_den a, ← Rat.num_div_den b]
  field_simp

theorem qmul_eq (a b : Rat) : qmul a b = a * b := by
  have ha : ((a.den : ℚ)) ≠ 0 := Nat.cast_ne_zero.mpr a.den_nz
  have hb : ((b.den : ℚ)) ≠ 0 := Nat.cast_ne_zero.mpr b.den_nz
  unfold qmul
  rw [Rat.mkRat_eq_div]
  push_cast
  conv_rhs => rw [← Rat.num_div_den a, ← Rat.num_div_den b]
  field_simp

theorem qdiv_eq (a b : Rat) : qdiv a b = a / b := by
  have ha : ((a.den : ℚ)) ≠ 0 := Nat.cast_ne_zero.mpr a.den_nz
  have hb : ((b.den : ℚ)) ≠ 0 := Nat.cast_ne_zero.mpr b.den_nz
  unfold qdiv
  rcases lt_trichotomy b.num 0 with h | h | h
  · rw [if_neg (not_le.mpr h), Rat.mkRat_eq_div]
    have h2 : (((-b.num).toNat : ℕ) : ℚ) = -((b.num : ℤ) : ℚ) := by
      exact_mod_cast Int.toNat_of_nonneg (by omega : (0:ℤ) ≤ -b.num)
    have h3 : ((b.num : ℚ)) ≠ 0 := by exact_mod_cast Int.ne_of_lt h
    push_cast [h2]
    conv_rhs => rw [← Rat.num_div_den a, ← Rat.num_div_den b]
    field_simp
  · rw [if_pos (le_of_eq h.symm)]
    have hb0 : b = 0 := by
      rw [← Rat.num_div_den b, h]; simp
    subst hb0
    simp [h]
  · rw [if_pos (le_of_lt h), Rat.mkRat_eq_div]
    have h2 : ((b.num.toNat : ℕ) : ℚ) = ((b.num : ℤ) : ℚ) := by
      exact_mod_cast Int.toNat_of_nonneg (le_of_lt h)
    have h3 : ((b.num : ℚ)) ≠ 0 := by exact_mod_cast Int.ne_of_gt h
    push_cast [h2]
    conv_rhs => rw [← Rat.num_div_den a, ← Rat.num_div_den b]
    field_simp

theorem q_eq (n : Int) (d : Nat) : q n d = (n : ℚ) / (d : ℚ) := by
  unfold q; rw [Rat.mkRat_eq_div]

/-- Claim C3 (amended): when `detected_intent = report_issue` is supplied
and the question-neutral early return does not fire, the extracted
sentiment is negative with confidence at least 0.6 (the floor of the
`max(0.6, min(0.4 + 0.15 n, 0.95))` formula; `q 3 5 = 0.6`).  The
original claim (for every text) is refuted by `C3_question_neutral_cx`:
the question check precedes the `report_issue` branch. -/
theorem C3_report_issue_negative_amended (text lang : String)
    (h : EE.questionNeutralFires text lang = false) :
    (EE.extractSentimentPatterns text lang (some "report_issue")).polarity = "negative" ∧
    q 3 5 ≤ (EE.extractSentimentPatterns text lang (some "report_issue")).confidence := by
  unfold EE.questionNeutralFires at h
  unfold EE.extractSentimentPatterns
  simp only [h]
  exact ⟨by simp, by simp⟩

/-- Claim C7: for every text that is a question with weak sentiment
signal (neither adjusted word count above 2), the extracted sentiment is
neutral with confidence 0.5, whatever intent is supplied. -/
theorem C7_question_neutral (text lang : String) (intent : Option String)
    (hq : EE.questionNeutralFires text lang = true) :
    EE.extractSentimentPatterns text lang intent =
      ⟨"neutral", q 1 2, "pattern"⟩ := by
  unfold EE.questionNeutralFires at hq
  unfold EE.extractSentimentPatterns
  simp only [hq]
  simp

/-- Counterexample to the unconditional C3: the question "what?" with
`report_issue` yields neutral sentiment, not negative. -/
theorem C3_question_neutral_cx :
    EE.extractSentimentPatterns "what?" "en" (some "report_issue") =
      ⟨"neutral", q 1 2, "pattern"⟩ ∧
    ¬(EE.extractSentimentPatterns "what?" "en" (some "report_issue")).polarity
      = "negative" := by decide

/-- Witness for the amended C3 at "the milk is missing". -/
theorem C3_report_issue_negative_witness :
    EE.questionNeutralFires "the milk is missing" "en" = false ∧
    (EE.extractSentimentPatterns "the milk is missing" "en"
        (some "report_issue")).polarity = "negative" ∧
    q 3 5 ≤ (EE.extractSentimentPatterns "the milk is missing" "en"
        (some "report_issue")).confidence :=
  ⟨by decide, C3_report_issue_negative_amended "the milk is missing" "en" (by decide)⟩

/-- Witness for C7 at "Where is my order?". -/
theorem C7_question_neutral_witness :
    EE.questionNeutralFires "Where is my order?" "en" = true ∧
    EE.extractSentimentPatterns "Where is my order?" "en" none =
      ⟨"neutral", q 1 2, "pattern"⟩ :=
  ⟨by decide, C7_question_neutral "Where is my order?" "en" none (by decide)⟩

theorem argmaxFirst_mem :
    ∀ (l : List (String × Rat)) (b : String × Rat),
      l.foldl (fun best p2 => if best.2 < p2.2 then p2 else best) b ∈ b :: l := by
  intro l
  induction l with
  | nil => intro b; simp
  | cons x xs ih =>
    intro b
    simp only [List.foldl_cons]
    rcases List.mem_cons.mp (ih (if b.2 < x.2 then x else b)) with h1 | h1
    · rw [h1]
      split
      · exact List.mem_cons_of_mem _ (List.mem_cons_self _ _)
      · exact List.mem_cons_self _ _
    · exact List.mem_cons_of_mem _ (List.mem_cons_of_mem _ h1)

theorem argmaxFirst_mem_cons (p : String × Rat) (rest : List (String × Rat)) :
    IC.argmaxFirst (p :: rest) ∈ p :: rest := by
  unfold IC.argmaxFirst
  exact argmaxFirst_mem rest p

theorem detectScores_keys (text : String) :
    ∀ x ∈ LD.detectScores text, x.1 = "en" ∨ x.1 = "fi" ∨ x.1 = "sv" := by
  intro x hx
  unfold LD.detectScores at hx
  simp only [List.map_map, List.mem_map] at hx
  obtain ⟨lang, hlang, rfl⟩ := hx
  simp only [List.mem_cons, List.mem_singleton, List.not_mem_nil, or_false] at hlang
  rcases hlang with rfl | rfl | rfl
  all_goals simp only [Function.comp]
  all_goals split <;> simp

/-- Claim C8: `LanguageDetector.detect` always returns a code in
{en, fi, sv}; it returns "en" on empty input and whenever the arg-max
language's length-normalized score is below the 0.1 threshold; it is a
function of the text alone, hence deterministic. -/
theorem C8_detect_contract (text : String) :
    (LD.detect text = "en" ∨ LD.detect text = "fi" ∨ LD.detect text = "sv") ∧
    (text = "" → LD.detect text = "en") ∧
    ((IC.argmaxFirst (LD.detectScores text)).2 < q 1 10 →
      LD.detect text = "en") := by
  unfold LD.detect
  by_cases ht : text = ""
  · simp [ht]
  · rw [if_neg ht]
    by_cases hb : (IC.argmaxFirst (LD.detectScores text)).2 < q 1 10
    · simp [hb, ht]
    · rw [if_neg hb]
      refine ⟨?_, fun h => absurd h ht, fun h => absurd h hb⟩
      have hmem : IC.argmaxFirst (LD.detectScores text) ∈ LD.detectScores text := by
        unfold LD.detectScores
        simp only [List.map_cons, List.map_nil]
        exact argmaxFirst_mem_cons _ _
      exact detectScores_keys text _ hmem

theorem searchAux_true_iff (fm : Nat) (pat : List RE.Rx) :
    ∀ (f : Nat) (prev : Option Char) (cs : List Char),
      RE.searchAux fm pat f prev cs = true ↔
        RE.countAux fm pat f prev cs ≠ 0 := by
  intro f
  induction f with
  | zero => intro prev cs; simp [RE.searchAux, RE.countAux]
  | succ f ih =>
    intro prev cs
    simp only [RE.searchAux, RE.countAux]
    cases hm : RE.matchRx fm pat prev cs with
    | some pr =>
      obtain ⟨p, rest⟩ := pr
      simp only
      split
      · cases cs <;> simp
      · simp
    | none =>
      cases cs with
      | nil => simp
      | cons c cs2 => simpa using ih (some c) cs2

theorem searchB_of_count_ne (pat : List RE.Rx) (s : String)
    (h : RE.count pat s ≠ 0) : RE.searchB pat s = true :=
  (searchAux_true_iff _ pat _ none s.data).mpr h

theorem C5_amended_aux (t : String) :
    ∀ (pats : List (List RE.Rx)) (acc : Rat),
      pats.foldl
        (fun sc pat =>
          let n := RE.count pat t
          if n ≠ 0 then
            let sc := qadd sc (qmul (q n 1) (q 3 10))
            if RE.searchB pat t then qadd sc (q 1 2) else sc
          else sc)
        acc =
      acc + q 3 10 * (IC.totalMatches pats t : ℚ) +
        q 1 2 * (IC.matchingPats pats t : ℚ) := by
  intro pats
  induction pats with
  | nil =>
    intro acc
    simp [IC.totalMatches, IC.matchingPats]
  | cons p ps ih =>
    intro acc
    simp only [List.foldl_cons]
    by_cases hn : RE.count p t ≠ 0
    · rw [if_pos hn, if_pos (searchB_of_count_ne p t hn), ih]
      have ht : IC.totalMatches (p :: ps) t = RE.count p t + IC.totalMatches ps t := by
        simp [IC.totalMatches]
      have hm : IC.matchingPats (p :: ps) t = IC.matchingPats ps t + 1 := by
        simp [IC.matchingPats, List.countP_cons, hn]
      rw [ht, hm]
      simp only [qadd_eq, qmul_eq, q_eq]
      push_cast
      ring
    · rw [if_neg hn, ih]
      have h0 : RE.count p t = 0 := by omega
      have ht : IC.totalMatches (p :: ps) t = IC.totalMatches ps t := by
        simp [IC.totalMatches, h0]
      have hm : IC.matchingPats (p :: ps) t = IC.matchingPats ps t := by
        simp [IC.matchingPats, List.countP_cons, h0]
      rw [ht, hm]

/-- Claim C5 (amended): the pre-adjustment rule-based score of an intent
equals 0.3 per regex match occurrence plus 0.5 per pattern that matches
at all (not a single 0.5 bonus), with the pattern list falling back to
the English list when the detected language has none.  The spec's
single-bonus reading is refuted by `C5_spec_formula_cx`. -/
theorem C5_base_score_formula (lp : List (String × List (List RE.Rx))) (lang t : String) :
    IC.baseScore (IC.patternsFor lp lang) t =
      q 3 10 * (IC.totalMatches (IC.patternsFor lp lang) t : ℚ) +
        q 1 2 * (IC.matchingPats (IC.patternsFor lp lang) t : ℚ) ∧
    (IC.alookup lang lp = none →
      IC.patternsFor lp lang = (IC.alookup "en" lp).getD []) := by
  constructor
  · unfold IC.baseScore
    rw [C5_amended_aux]
    norm_num [q_eq]
  · intro h
    unfold IC.patternsFor
    rw [h]
    rfl

/-- Counterexample to the spec's single-0.5-bonus formula: on
"yes i agree" two confirm patterns match, giving 2*0.3 + 2*0.5 = 1.6,
not 2*0.3 + 0.5 = 1.1. -/
theorem C5_spec_formula_cx :
    IC.baseScore IC.confirmEnPats "yes i agree" = q 8 5 ∧
    IC.specBaseScore IC.confirmEnPats "yes i agree" = q 11 10 ∧
    ¬IC.baseScore IC.confirmEnPats "yes i agree" =
      IC.specBaseScore IC.confirmEnPats "yes i agree" := by decide

theorem containsList_append (n m hay : List Char)
    (hc : IC.containsList (n ++ m) hay = true) : IC.containsList n hay = true := by
  induction hay with
  | nil =>
    simp [IC.containsList] at hc ⊢
    cases n with
    | nil => rfl
    | cons a b => simp at hc
  | cons c rest ih =>
    simp only [IC.containsList, Bool.or_eq_true] at hc ⊢
    rcases hc with h1 | h1
    · left
      rw [List.isPrefixOf_iff_prefix] at h1 ⊢
      exact (List.prefix_append n m).trans h1
    · right; exact ih h1

/-- Claim C10: `_has_negation` is plain substring containment, so any
English text containing "no" anywhere (also inside "know" or "now")
counts as negated, and the confirm score is multiplied by 0.1 while the
reject score is multiplied by 1.5. -/
theorem C10_negation_substring (text : String) (s : Rat)
    (h : (IC.containsSub "no" (IC.lowerStr text) ||
      IC.containsSub "not" (IC.lowerStr text)) = true)
    (h2 : IC.containsSub "in my order" (IC.lowerStr text) = false)
    (h3 : IC.containsSub "from my order" (IC.lowerStr text) = false) :
    IC.hasNegation (IC.lowerStr text) "en" = true ∧
    IC.adjustScore "confirm_substitution" (IC.lowerStr text) true s =
      qmul s (q 1 10) ∧
    IC.adjustScore "reject_substitution" (IC.lowerStr text) true s =
      qmul s (q 3 2) := by
  have hno : IC.containsSub "no" (IC.lowerStr text) = true := by
    simp only [Bool.or_eq_true] at h
    rcases h with h1 | h1
    · exact h1
    · exact containsList_append "no".data ['t'] (IC.lowerStr text).data h1
  refine ⟨?_, ?_, ?_⟩
  · unfold IC.hasNegation
    rw [List.any_eq_true]
    exact ⟨"no", by decide, hno⟩
  · unfold IC.adjustScore
    simp
  · unfold IC.adjustScore
    simp [h2, h3]

/-- Witness for C10 at "i know", whose lowercased form contains "no"
only inside "know". -/
theorem C10_negation_substring_witness :
    (IC.containsSub "no" (IC.lowerStr "i know") ||
      IC.containsSub "not" (IC.lowerStr "i know")) = true ∧
    IC.hasNegation (IC.lowerStr "i know") "en" = true ∧
    IC.adjustScore "confirm_substitution" (IC.lowerStr "i know") true (q 4 5) =
      qmul (q 4 5) (q 1 10) ∧
    IC.adjustScore "reject_substitution" (IC.lowerStr "i know") true (q 4 5) =
      qmul (q 4 5) (q 3 2) :=
  ⟨by decide, C10_negation_substring "i know" (q 4 5) (by decide) (by decide) (by decide)⟩

/-- Claim C6: with context stage `pre_order_substitution`, bare "yes"
classifies as `confirm_substitution` and bare "no" as
`reject_substitution`, each with confidence at least 0.5, for any
semantic-classifier availability and similarity model. -/
theorem C6_bare_yes_no_stage_boost (semAvail : Bool) (sims : String → Option Rat) :
    (IC.classify semAvail sims "yes" "en"
        (some ⟨some "pre_order_substitution", false, false⟩) =
      ("confirm_substitution", q 17 20) ∧
      q 1 2 ≤ (IC.classify semAvail sims "yes" "en"
        (some ⟨some "pre_order_substitution", false, false⟩)).2) ∧
    (IC.classify semAvail sims "no" "en"
        (some ⟨some "pre_order_substitution", false, false⟩) =
      ("reject_substitution", q 17 20) ∧
      q 1 2 ≤ (IC.classify semAvail sims "no" "en"
        (some ⟨some "pre_order_substitution", false, false⟩)).2) := by
  have hy : IC.ruleResult "yes" "en"
      (some ⟨some "pre_order_substitution", false, false⟩) =
      ("confirm_substitution", q 17 20, [("confirm_substitution", q 1 1)]) := by
    decide
  have hn : IC.ruleResult "no" "en"
      (some ⟨some "pre_order_substitution", false, false⟩) =
      ("reject_substitution", q 17 20, [("reject_substitution", q 1 1)]) := by
    decide
  have hlt : ¬(q 17 20 < IC.semThreshold) := by decide
  have h1 : IC.classify semAvail sims "yes" "en"
      (some ⟨some "pre_order_substitution", false, false⟩) =
      ("confirm_substitution", q 17 20) := by
    unfold IC.classify IC.combineSem
    rw [if_neg (by decide : ¬("yes" = ""))]
    simp only [hy, hlt]
    simp
  have h2 : IC.classify semAvail sims "no" "en"
      (some ⟨some "pre_order_substitution", false, false⟩) =
      ("reject_substitution", q 17 20) := by
    unfold IC.classify IC.combineSem
    rw [if_neg (by decide : ¬("no" = ""))]
    simp only [hn, hlt]
    simp
  refine ⟨⟨h1, ?_⟩, ⟨h2, ?_⟩⟩
  · rw [h1]; decide
  · rw [h2]; decide

theorem q_zero : q 0 1 = 0 := by decide

theorem adjustScore_zero (i tl : String) (hn : Bool) :
    IC.adjustScore i tl hn (q 0 1) = q 0 1 := by
  have hz : ∀ (c : Prop) [Decidable c] (f : Rat),
      (if c then qmul (q 0 1) f else (q 0 1)) = q 0 1 := by
    intro c _ f
    split
    · rw [qmul_eq, q_zero, zero_mul]
    · rfl
  unfold IC.adjustScore
  simp only [hz]

theorem baseScore_zero (t : String) :
    ∀ (pats : List (List RE.Rx)),
      pats.all (fun pat => !(RE.searchB pat t)) = true →
      IC.baseScore pats t = q 0 1 := by
  intro pats
  unfold IC.baseScore
  induction pats with
  | nil => intro _; rfl
  | cons p ps ih =>
    intro h
    simp only [List.all_cons, Bool.and_eq_true, Bool.not_eq_true'] at h
    simp only [List.foldl_cons]
    have hc : RE.count p t = 0 := by
      by_contra hc
      rw [searchB_of_count_ne p t hc] at h
      exact absurd h.1 (by decide)
    rw [if_neg (by simp [hc])]
    exact ih (by simpa using h.2)

theorem rawScores_aux (tl lang : String) :
    ∀ (L : List (String × List (String × List (List RE.Rx))))
      (acc : List (String × Rat)),
      L.all (fun p =>
        (IC.patternsFor p.2 lang).all (fun pat => !(RE.searchB pat tl))) = true →
      L.foldl
        (fun acc p =>
          let sc := IC.adjustScore p.1 tl (IC.hasNegation tl lang)
            (IC.baseScore (IC.patternsFor p.2 lang) tl)
          if q 0 1 < sc then acc ++ [(p.1, sc)] else acc)
        acc = acc := by
  intro L
  induction L with
  | nil => intro acc _; rfl
  | cons p ps ih =>
    intro acc h
    simp only [List.all_cons, Bool.and_eq_true] at h
    simp only [List.foldl_cons]
    rw [show (IC.adjustScore p.1 tl (IC.hasNegation tl lang)
        (IC.baseScore (IC.patternsFor p.2 lang) tl)) = q 0 1 from by
      rw [baseScore_zero tl _ h.1, adjustScore_zero]]
    rw [if_neg (by decide : ¬(q 0 1 < q 0 1))]
    exact ih acc (by simpa using h.2)

theorem rawScores_nil (tl lang : String)
    (h : IC.noPatternMatch tl lang = true) :
    IC.rawScores tl lang = [] := by
  unfold IC.rawScores
  unfold IC.noPatternMatch at h
  exact rawScores_aux tl lang _ [] h

theorem stageAdjust_nil (ctx : Option IC.Context) (tl : String)
    (h : IC.stageInsertApplies ctx tl = false) :
    IC.stageAdjust ctx tl [] = [] := by
  unfold IC.stageInsertApplies at h
  simp only [Bool.or_eq_false_iff, Bool.and_eq_false_iff] at h
  unfold IC.stageAdjust
  by_cases h1 : IC.stageOf ctx = some "pre_order_substitution"
  · rw [if_pos h1]
    rcases h.1 with hbad | hyn
    · exact absurd h1 (by simpa using hbad)
    · simp only [IC.mulKey, List.map_nil]
      rw [if_neg (by simpa using hyn.2), if_neg (by simpa using hyn.1)]
  · rw [if_neg h1]
    by_cases h2 : IC.stageOf ctx = some "post_delivery_investigation"
    · rw [if_pos h2]
      rcases h.2 with hbad | hind
      · exact absurd h2 (by simpa using hbad)
      · simp only [IC.mulKey, List.map_nil]
        rw [if_neg (by simp [hind])]
        split <;> rfl
    · rw [if_neg h2]
      cases ctx with
      | none => rfl
      | some c =>
        simp only [IC.mulKey, List.map_nil]
        split <;> rfl

/-- Claim C4 (amended): `classify` on empty text returns
`(unknown, 0.0)`; and on nonempty text for which no intent pattern
matches, when the semantic classifier is unavailable and no
context-stage score insertion applies, it returns `(unknown, 0.3)`.
The original no-match part is refuted by `C4_stage_insertion_cx`: stage
adjustment can insert a score where no pattern matched. -/
theorem C4_empty_and_nomatch_amended (sims : String → Option Rat) (text lang : String)
    (ctx : Option IC.Context)
    (h1 : IC.noPatternMatch (IC.lowerStr text) lang = true)
    (h2 : IC.stageInsertApplies ctx (IC.lowerStr text) = false)
    (h3 : text ≠ "") :
    IC.classify false sims "" lang ctx = ("unknown", q 0 1) ∧
    IC.classify false sims text lang ctx = ("unknown", q 3 10) := by
  constructor
  · unfold IC.classify
    rw [if_pos rfl]
  · unfold IC.classify
    rw [if_neg h3]
    have hr : IC.ruleResult text lang ctx = ("unknown", q 3 10, []) := by
      unfold IC.ruleResult
      simp only [rawScores_nil (IC.lowerStr text) lang h1,
        stageAdjust_nil ctx (IC.lowerStr text) h2]
    rw [hr]
    unfold IC.combineSem
    simp

/-- Witness for the amended C4 at text "zzz", language "en". -/
theorem C4_empty_and_nomatch_witness :
    ("zzz" : String) ≠ "" ∧
    IC.noPatternMatch (IC.lowerStr "zzz") "en" = true ∧
    IC.stageInsertApplies none (IC.lowerStr "zzz") = false ∧
    IC.classify false (fun _ => none) "" "en" none = ("unknown", q 0 1) ∧
    IC.classify false (fun _ => none) "zzz" "en" none = ("unknown", q 3 10) := by
  refine ⟨by decide, by decide, by decide, ?_, ?_⟩
  · exact (C4_empty_and_nomatch_amended (fun _ => none) "zzz" "en" none (by decide) (by decide)
      (by decide)).1
  · exact (C4_empty_and_nomatch_amended (fun _ => none) "zzz" "en" none (by decide) (by decide)
      (by decide)).2

theorem dedupBy_nodup :
    ∀ (l : List EE.PEntity) (seen : List (Option String × Option String)),
      ((EE.dedupBy seen l).map EE.pkey).Nodup ∧
      ∀ k ∈ (EE.dedupBy seen l).map EE.pkey, k ∉ seen := by
  intro l
  induction l with
  | nil =>
    intro seen
    exact ⟨List.nodup_nil, by simp [EE.dedupBy]⟩
  | cons p rest ih =>
    intro seen
    unfold EE.dedupBy
    by_cases hs : EE.pkey p ∈ seen
    · rw [if_pos (by simpa using hs)]
      exact ih seen
    · rw [if_neg (by simpa using hs)]
      obtain ⟨hnd, hnot⟩ := ih (EE.pkey p :: seen)
      refine ⟨?_, ?_⟩
      · simp only [List.map_cons, List.nodup_cons]
        exact ⟨fun hmem => (hnot _ hmem) (List.mem_cons_self _ _), hnd⟩
      · intro k hk hkseen
        simp only [List.map_cons, List.mem_cons] at hk
        rcases hk with rfl | hk
        · exact hs hkseen
        · exact (hnot _ hk) (List.mem_cons_of_mem _ hkseen)

/-- Claim C9 (amended): for every text, context and nonempty catalog,
the extracted product list has pairwise distinct (gtin, name) keys and
length at most 5.  The original claim (every catalog) is refuted by
`C9_empty_catalog_dup_cx`: the empty-catalog capitalized-words branch
returns without deduplication. -/
theorem C9_product_dedup_cap (fa : Bool) (fr : List EE.PEntity) (text : String)
    (ps : Option String) (catalog : List EE.Product) (h : catalog ≠ []) :
    ((EE.extractProducts fa fr text ps catalog 5).map EE.pkey).Nodup ∧
    (EE.extractProducts fa fr text ps catalog 5).length ≤ 5 := by
  unfold EE.extractProducts
  rw [if_neg (by simpa using h)]
  constructor
  · exact List.Nodup.sublist (List.Sublist.map _ (List.take_sublist _ _))
      (dedupBy_nodup _ []).1
  · exact List.length_take_le _ _

/-- Counterexample to C9 for the empty catalog: "Milk and Yogurt and
Milk" yields the key (none, Milk) twice. -/
theorem C9_empty_catalog_dup_cx :
    ¬((EE.extractProducts false [] "Milk and Yogurt and Milk" none [] 5).map
        EE.pkey).Nodup ∧
    (EE.extractProducts false [] "Milk and Yogurt and Milk" none [] 5).map
        EE.pkey =
      [(none, some "Milk"), (none, some "Yogurt"), (none, some "Milk")] := by
  decide

/-- Witness for the amended C9 on a one-product catalog. -/
theorem C9_product_dedup_witness :
    ((EE.extractProducts false [] "I want Milk" none
        [⟨some "Milk", [], some "G1"⟩] 5).map EE.pkey).Nodup ∧
    (EE.extractProducts false [] "I want Milk" none
        [⟨some "Milk", [], some "G1"⟩] 5).length ≤ 5 :=
  C9_product_dedup_cap false [] "I want Milk" none [⟨some "Milk", [], some "G1"⟩]
    (List.cons_ne_nil _ _)

theorem rawScores_keys_aux (tl lang : String) :
    ∀ (L : List (String × List (String × List (List RE.Rx))))
      (acc : List (String × Rat)),
      ∀ x ∈ L.foldl
        (fun acc p =>
          let sc := IC.adjustScore p.1 tl (IC.hasNegation tl lang)
            (IC.baseScore (IC.patternsFor p.2 lang) tl)
          if q 0 1 < sc then acc ++ [(p.1, sc)] else acc)
        acc,
        x ∈ acc ∨ x.1 ∈ L.map Prod.fst := by
  intro L
  induction L with
  | nil => intro acc x hx; exact Or.inl hx
  | cons p ps ih =>
    intro acc x hx
    simp only [List.foldl_cons] at hx
    rcases ih _ x hx with hacc | hmem
    · revert hacc
      split
      · intro hacc
        rcases List.mem_append.mp hacc with h | h
        · exact Or.inl h
        · simp only [List.mem_singleton] at h
          subst h
          exact Or.inr (by simp)
      · intro hacc
        exact Or.inl hacc
    · exact Or.inr (List.mem_cons_of_mem _ hmem)

theorem rawScores_keys (tl lang : String) :
    ∀ x ∈ IC.rawScores tl lang, x.1 ∈ IC.intentNames := by
  intro x hx
  unfold IC.rawScores at hx
  rcases rawScores_keys_aux tl lang _ [] x hx with h | h
  · simp at h
  · simpa [IC.intentNames] using h

theorem mulKey_keys_pres (k : String) (f : Rat) (l : List (String × Rat))
    (hl : ∀ x ∈ l, x.1 ∈ IC.intentNames) :
    ∀ x ∈ IC.mulKey k f l, x.1 ∈ IC.intentNames := by
  intro x hx
  unfold IC.mulKey at hx
  simp only [List.mem_map] at hx
  obtain ⟨y, hy, rfl⟩ := hx
  have := hl y hy
  split <;> simpa

theorem insertIfAbsent_keys_pres (k : String) (v : Rat)
    (l : List (String × Rat)) (hk : k ∈ IC.intentNames)
    (hl : ∀ x ∈ l, x.1 ∈ IC.intentNames) :
    ∀ x ∈ IC.insertIfAbsent k v l, x.1 ∈ IC.intentNames := by
  intro x hx
  unfold IC.insertIfAbsent at hx
  revert hx
  split
  · exact hl x
  · intro hx
    rcases List.mem_append.mp hx with h | h
    · exact hl x h
    · simp only [List.mem_singleton] at h
      subst h
      exact hk

theorem stageAdjust_keys (ctx : Option IC.Context) (tl : String)
    (l : List (String × Rat)) (hl : ∀ x ∈ l, x.1 ∈ IC.intentNames) :
    ∀ x ∈ IC.stageAdjust ctx tl l, x.1 ∈ IC.intentNames := by
  intro x hx
  simp only [IC.stageAdjust] at hx
  unfold IC.insertIfAbsent at hx
  repeat' split at hx
  all_goals repeat (rcases List.mem_append.mp hx with hx | hx)
  all_goals try (simp only [List.mem_singleton] at hx; subst hx)
  all_goals
    first
    | decide
    | exact hl x hx
    | exact mulKey_keys_pres _ _ _ hl x hx
    | exact mulKey_keys_pres _ _ _ (mulKey_keys_pres _ _ _ hl) x hx
    | exact mulKey_keys_pres _ _ _ (mulKey_keys_pres _ _ _
        (mulKey_keys_pres _ _ _ hl)) x hx
    | exact mulKey_keys_pres _ _ _ (mulKey_keys_pres _ _ _
        (mulKey_keys_pres _ _ _ (mulKey_keys_pres _ _ _ hl))) x hx
    | exact mulKey_keys_pres _ _ _ (mulKey_keys_pres _ _ _
        (mulKey_keys_pres _ _ _ (mulKey_keys_pres _ _ _
          (mulKey_keys_pres _ _ _ hl)))) x hx
    | exact mulKey_keys_pres _ _ _ (mulKey_keys_pres _ _ _
        (mulKey_keys_pres _ _ _ (mulKey_keys_pres _ _ _
          (mulKey_keys_pres _ _ _ (mulKey_keys_pres _ _ _ hl))))) x hx

theorem argmax_map_fst (P : String → Prop) (g : String × Rat → String × Rat)
    (p0 : String × Rat) (rest : List (String × Rat))
    (hg : ∀ x, (g x).1 = x.1)
    (hl : ∀ x ∈ p0 :: rest, P x.1) :
    P ((IC.argmaxFirst ((p0 :: rest).map g)).1) := by
  have hmem : IC.argmaxFirst ((p0 :: rest).map g) ∈ (p0 :: rest).map g := by
    rw [List.map_cons]
    exact argmaxFirst_mem_cons _ _
  obtain ⟨y, hy, hfy⟩ := List.mem_map.mp hmem
  rw [← hfy, hg]
  exact hl y hy

theorem finalize_props (text : String) (p0 : String × Rat)
    (rest : List (String × Rat))
    (hl : ∀ x ∈ p0 :: rest, x.1 ∈ IC.intentNames) :
    (IC.finalize text (p0 :: rest)).1 ∈ IC.intentNames ∧
    q 0 1 ≤ (IC.finalize text (p0 :: rest)).2.1 ∧
    (IC.finalize text (p0 :: rest)).2.1 ≤ q 1 1 := by
  simp only [IC.finalize]
  refine ⟨?_, ?_, ?_⟩
  · exact argmax_map_fst (· ∈ IC.intentNames) _ p0 rest (fun x => rfl) hl
  · exact le_trans (by decide : q 0 1 ≤ q 1 2) le_sup_right
  · exact sup_le (le_trans inf_le_right (by decide)) (by decide)

theorem ruleResult_props (text lang : String) (ctx : Option IC.Context) :
    (IC.ruleResult text lang ctx).1 ∈ IC.vocab14 ∧
    q 0 1 ≤ (IC.ruleResult text lang ctx).2.1 ∧
    (IC.ruleResult text lang ctx).2.1 ≤ q 1 1 := by
  unfold IC.ruleResult
  have hkeys := stageAdjust_keys ctx (IC.lowerStr text) _
    (rawScores_keys (IC.lowerStr text) lang)
  cases hs : IC.stageAdjust ctx (IC.lowerStr text)
      (IC.rawScores (IC.lowerStr text) lang) with
  | nil =>
    simp only [hs]
    exact ⟨by decide, by decide, by decide⟩
  | cons p0 rest =>
    simp only [hs]
    rw [hs] at hkeys
    obtain ⟨h1, h2, h3⟩ := finalize_props text p0 rest hkeys
    exact ⟨List.mem_append_left _ h1, h2, h3⟩

theorem insertDesc_mem (x p : String × Rat) :
    ∀ (l : List (String × Rat)), x ∈ IC.insertDesc p l → x = p ∨ x ∈ l := by
  intro l
  induction l with
  | nil => simp [IC.insertDesc]
  | cons p2 rest ih =>
    unfold IC.insertDesc
    split
    · intro hx
      rcases List.mem_cons.mp hx with h | h
      · exact Or.inl h
      · exact Or.inr h
    · intro hx
      rcases List.mem_cons.mp hx with h | h
      · exact Or.inr (by rw [h]; exact List.mem_cons_self _ _)
      · rcases ih h with h2 | h2
        · exact Or.inl h2
        · exact Or.inr (List.mem_cons_of_mem _ h2)

theorem sortDesc_mem (x : String × Rat) :
    ∀ (l : List (String × Rat)), x ∈ IC.sortDesc l → x ∈ l := by
  intro l
  induction l with
  | nil => simp [IC.sortDesc]
  | cons p rest ih =>
    intro hx
    unfold IC.sortDesc at hx
    rcases insertDesc_mem x p _ hx with h | h
    · rw [h]; exact List.mem_cons_self _ _
    · exact List.mem_cons_of_mem _ (ih h)

theorem semClassify_mem (sims : String → Option Rat) (text : String)
    (k : Nat) (x : String × Rat) (hx : x ∈ IC.semClassify sims text k) :
    x.1 ∈ IC.semanticIntents ∧ q 0 1 ≤ x.2 ∧ x.2 ≤ q 1 1 := by
  unfold IC.semClassify at hx
  split at hx
  · simp at hx
  · have hx2 := sortDesc_mem x _ (List.mem_of_mem_take hx)
    obtain ⟨i, hi, hfi⟩ := List.mem_filterMap.mp hx2
    obtain ⟨s, _, heq⟩ := Option.map_eq_some'.mp hfi
    rw [← heq]
    refine ⟨hi, le_max_left _ _, max_le (by decide) (min_le_left _ _)⟩

theorem combineSem_props (semAvail : Bool) (sims : String → Option Rat)
    (text ri : String) (rc : Rat) (rs : List (String × Rat))
    (h1 : ri ∈ IC.vocab14) (h2 : q 0 1 ≤ rc) (h3 : rc ≤ q 1 1) :
    (IC.combineSem semAvail sims text (ri, rc, rs)).1 ∈ IC.vocab14 ∧
    q 0 1 ≤ (IC.combineSem semAvail sims text (ri, rc, rs)).2 ∧
    (IC.combineSem semAvail sims text (ri, rc, rs)).2 ≤ q 1 1 := by
  simp only [IC.combineSem]
  split
  · split
    next heq => exact ⟨h1, h2, h3⟩
    next si ss tl heq =>
      obtain ⟨hm1, hm2, hm3⟩ := semClassify_mem sims text 3 (si, ss)
        (heq ▸ List.mem_cons_self _ tl)
      have hssq : (0 : ℚ) ≤ ss := q_zero ▸ hm2
      have hw0 : q 0 1 ≤ qmul ss IC.semWeight := by
        rw [qmul_eq, q_zero]
        exact mul_nonneg hssq (by rw [← q_zero]; decide)
      have hsub : si ∈ IC.vocab14 := by
        have hall : ∀ a ∈ IC.semanticIntents, a ∈ IC.vocab14 := by decide
        exact hall si hm1
      split
      · split
        · exact ⟨hsub, le_inf hw0 (by decide),
            le_trans inf_le_right (by decide)⟩
        · exact ⟨h1, le_inf (le_trans hw0 le_sup_right) (by decide),
            le_trans inf_le_right (by decide)⟩
      · exact ⟨hsub, le_inf hw0 (by decide),
          le_trans inf_le_right (by decide)⟩
  · exact ⟨h1, h2, h3⟩

/-- Claim C1: for every input text, language code and context, and any
availability/similarity model of the semantic classifier,
`IntentClassifier.classify` returns an intent of the fixed 14-name
vocabulary (the 13 intents plus `unknown`) and a confidence in [0, 1]. -/
theorem C1_classify_vocab_and_range (semAvail : Bool) (sims : String → Option Rat)
    (text lang : String) (ctx : Option IC.Context) :
    (IC.classify semAvail sims text lang ctx).1 ∈ IC.vocab14 ∧
    q 0 1 ≤ (IC.classify semAvail sims text lang ctx).2 ∧
    (IC.classify semAvail sims text lang ctx).2 ≤ q 1 1 := by
  unfold IC.classify
  split
  · exact ⟨by decide, by decide, by decide⟩
  · have hp := ruleResult_props text lang ctx
    rcases hR : IC.ruleResult text lang ctx with ⟨ri, rc, rs⟩
    rw [hR] at hp
    exact combineSem_props semAvail sims text ri rc rs hp.1 hp.2.1 hp.2.2

/-- Counterexample to the unconditional no-match part of C4: "yes" in
Finnish matches no pattern, yet at stage `pre_order_substitution` the
stage insertion makes classify return `confirm_substitution`. -/
theorem C4_stage_insertion_cx :
    IC.noPatternMatch (IC.lowerStr "yes") "fi" = true ∧
    IC.classify false (fun _ => none) "yes" "fi"
        (some ⟨some "pre_order_substitution", false, false⟩) =
      ("confirm_substitution", q 1 2) ∧
    ¬IC.classify false (fun _ => none) "yes" "fi"
        (some ⟨some "pre_order_substitution", false, false⟩) =
      ("unknown", q 3 10) := by decide

/-- Witness for C8 at the empty string. -/
theorem C8_detect_contract_witness :
    (LD.detect "" = "en" ∨ LD.detect "" = "fi" ∨ LD.detect "" = "sv") ∧
    LD.detect "" = "en" ∧ LD.detect "" = "en" :=
  ⟨(C8_detect_contract "").1, (C8_detect_contract "").2.1 rfl, (C8_detect_contract "").2.2 (by decide)⟩

/-- Witness for C5 at language "de" (absent from the table, so the
English confirm patterns are used) and text "yes". -/
theorem C5_base_score_witness :
    (IC.alookup "de"
        ((IC.alookup "confirm_substitution" IC.intentPatterns).getD [])).isNone
      = true ∧
    IC.patternsFor ((IC.alookup "confirm_substitution" IC.intentPatterns).getD [])
        "de" =
      (IC.alookup "en"
        ((IC.alookup "confirm_substitution" IC.intentPatterns).getD [])).getD [] ∧
    IC.baseScore
        (IC.patternsFor
          ((IC.alookup "confirm_substitution" IC.intentPatterns).getD []) "de")
        "yes" =
      q 3 10 * (IC.totalMatches
          (IC.patternsFor
            ((IC.alookup "confirm_substitution" IC.intentPatterns).getD []) "de")
          "yes" : ℚ) +
        q 1 2 * (IC.matchingPats
          (IC.patternsFor
            ((IC.alookup "confirm_substitution" IC.intentPatterns).getD []) "de")
          "yes" : ℚ) :=
  ⟨by decide,
   (C5_base_score_formula _ "de" "yes").2 (Option.isNone_iff_eq_none.mp (by decide)),
   (C5_base_score_formula _ "de" "yes").1⟩

theorem allSp_of_sub (l1 l2 : List Char) (hsub : ∀ c ∈ l1, c ∈ l2)
    (h : TN.allSp l2) : TN.allSp l1 :=
  fun c hc hs => h c (hsub c hc) hs

theorem chainOk_cons (a : Char) (r : List Char) (h : TN.chainOk (a :: r)) :
    TN.chainOk r := by
  cases r with
  | nil => trivial
  | cons b r2 => exact h.2

theorem chainOk_append_left (t l : List Char) (h : TN.chainOk (t ++ l)) :
    TN.chainOk l := by
  induction t with
  | nil => exact h
  | cons a t ih => exact ih (chainOk_cons _ _ h)

theorem chainOk_suffix (l1 l2 : List Char) (h : l1 <:+ l2)
    (hc : TN.chainOk l2) : TN.chainOk l1 := by
  obtain ⟨t, rfl⟩ := h
  exact chainOk_append_left t l1 hc

theorem chainOk_iff (l : List Char) :
    TN.chainOk l ↔ List.Chain' (fun a b => ¬(a = ' ' ∧ b = ' ')) l := by
  induction l with
  | nil => simp [TN.chainOk]
  | cons a r ih =>
    cases r with
    | nil => simp [TN.chainOk]
    | cons b r2 =>
      simp only [TN.chainOk, List.chain'_cons]
      exact and_congr Iff.rfl ih

theorem chainOk_reverse (l : List Char) (h : TN.chainOk l) :
    TN.chainOk l.reverse := by
  rw [chainOk_iff] at h ⊢
  rw [List.chain'_reverse]
  exact List.Chain'.imp (fun a b hab => fun hc => hab ⟨hc.2, hc.1⟩) h

theorem noLead_dropWhile (l : List Char) :
    TN.noLead (l.dropWhile RE.isSpace) := by
  induction l with
  | nil => exact trivial
  | cons c r ih =>
    rw [List.dropWhile_cons]
    split
    · exact ih
    · next h => exact (by simpa using h)

theorem dropWhile_of_noLead (l : List Char) (h : TN.noLead l) :
    l.dropWhile RE.isSpace = l := by
  cases l with
  | nil => rfl
  | cons c r =>
    have h2 : RE.isSpace c = false := h
    rw [List.dropWhile_cons, if_neg (by simp [h2])]

theorem noLead_prefix (l1 l2 : List Char) (h : l1 <+: l2)
    (hn : TN.noLead l2) : TN.noLead l1 := by
  cases l1 with
  | nil => exact trivial
  | cons c r =>
    obtain ⟨t, rfl⟩ := h
    exact hn

theorem noLead_strip (s : String) : TN.noLead (IC.strip s).data := by
  have h1 : TN.noLead (s.data.dropWhile RE.isSpace) := noLead_dropWhile _
  have hs : ((s.data.dropWhile RE.isSpace).reverse.dropWhile RE.isSpace) <:+
      (s.data.dropWhile RE.isSpace).reverse := List.dropWhile_suffix _
  have hpre := List.reverse_prefix.mpr hs
  rw [List.reverse_reverse] at hpre
  exact noLead_prefix _ _ hpre h1

theorem noTrail_strip (s : String) : TN.noTrail (IC.strip s).data := by
  have h : (IC.strip s).data.reverse =
      ((s.data.dropWhile RE.isSpace).reverse.dropWhile RE.isSpace) := by
    simp [IC.strip]
  show TN.noLead (IC.strip s).data.reverse
  rw [h]
  exact noLead_dropWhile _

theorem allSp_strip (s : String) (h : TN.allSp s.data) :
    TN.allSp (IC.strip s).data := by
  refine allSp_of_sub _ _ ?_ h
  intro c hc
  rw [show (IC.strip s).data =
      ((s.data.dropWhile RE.isSpace).reverse.dropWhile RE.isSpace).reverse
    from rfl, List.mem_reverse] at hc
  have hc2 := (List.dropWhile_sublist _).subset hc
  rw [List.mem_reverse] at hc2
  exact (List.dropWhile_sublist _).subset hc2

theorem chainOk_strip (s : String) (h : TN.chainOk s.data) :
    TN.chainOk (IC.strip s).data := by
  have h1 : TN.chainOk (s.data.dropWhile RE.isSpace) :=
    chainOk_suffix _ _ (List.dropWhile_suffix _) h
  have h2 := chainOk_reverse _ h1
  have h3 : TN.chainOk
      ((s.data.dropWhile RE.isSpace).reverse.dropWhile RE.isSpace) :=
    chainOk_suffix _ _ (List.dropWhile_suffix _) h2
  exact chainOk_reverse _ h3

theorem allSp_collapseAux (l : List Char) : ∀ b, TN.allSp (TN.collapseAux b l) := by
  induction l with
  | nil =>
    intro b
    intro x hx hsx
    simp [TN.collapseAux] at hx
  | cons c r ih =>
    intro b
    simp only [TN.collapseAux]
    split
    · split
      · exact ih true
      · intro x hx hsx
        rcases List.mem_cons.mp hx with rfl | hx
        · rfl
        · exact ih true x hx hsx
    · next hns =>
      intro x hx hsx
      rcases List.mem_cons.mp hx with rfl | hx
      · exact absurd hsx (by simpa using hns)
      · exact ih false x hx hsx

theorem chain_collapseAux :
    ∀ (l : List Char), (∀ b, TN.chainOk (TN.collapseAux b l)) ∧
      TN.noLead (TN.collapseAux true l) := by
  intro l
  induction l with
  | nil => exact ⟨fun _ => trivial, trivial⟩
  | cons c r ih =>
    obtain ⟨ihc, ihn⟩ := ih
    constructor
    · intro b
      simp only [TN.collapseAux]
      split
      · split
        · exact ihc true
        · have hc := ihc true
          cases hcr : TN.collapseAux true r with
          | nil => exact trivial
          | cons x xs =>
            rw [hcr] at hc
            have hx : RE.isSpace x = false := by rw [hcr] at ihn; exact ihn
            exact ⟨fun hp => by rw [hp.2] at hx; exact absurd hx (by decide), hc⟩
      · next hns =>
        have hc := ihc false
        cases hcf : TN.collapseAux false r with
        | nil => exact trivial
        | cons x xs =>
          rw [hcf] at hc
          exact ⟨fun hp => by rw [hp.1] at hns; exact hns (by decide), hc⟩
    · simp only [TN.collapseAux]
      split
      · rw [if_pos trivial]
        exact ihn
      · next hns => exact (by simpa using hns)

theorem collapseAux_id :
    ∀ (l : List Char), TN.allSp l → TN.chainOk l →
      TN.collapseAux false l = l ∧
        (TN.noLead l → TN.collapseAux true l = l) := by
  intro l
  induction l with
  | nil => exact fun _ _ => ⟨rfl, fun _ => rfl⟩
  | cons c r ih =>
    intro hA hC
    have hAr : TN.allSp r := fun x hx hs => hA x (List.mem_cons_of_mem _ hx) hs
    have hCr : TN.chainOk r := chainOk_cons _ _ hC
    obtain ⟨ih1, ih2⟩ := ih hAr hCr
    by_cases hsp : RE.isSpace c = true
    · have hce : c = ' ' := hA c (List.mem_cons_self _ _) hsp
      have hnr : TN.noLead r := by
        cases r with
        | nil => exact trivial
        | cons x xs =>
          by_cases hx : RE.isSpace x = true
          · have hxe : x = ' ' :=
              hA x (List.mem_cons_of_mem _ (List.mem_cons_self _ _)) hx
            rw [hce] at hC
            exact absurd ⟨rfl, hxe⟩ hC.1
          · exact (by simpa using hx)
      constructor
      · simp only [TN.collapseAux, if_pos hsp]
        rw [if_neg (by decide : ¬(false = true)), ih2 hnr, hce]
      · intro hnl
        have : RE.isSpace c = false := hnl
        rw [this] at hsp
        exact absurd hsp (by decide)
    · have hspf : RE.isSpace c = false := by
        cases hh : RE.isSpace c
        · rfl
        · exact absurd hh hsp
      constructor
      · simp only [TN.collapseAux, if_neg hsp]
        rw [ih1]
      · intro _
        simp only [TN.collapseAux, if_neg hsp]
        rw [ih1]

theorem strip_id (s : String) (hL : TN.noLead s.data)
    (hT : TN.noTrail s.data) : IC.strip s = s := by
  have h1 : s.data.dropWhile RE.isSpace = s.data := dropWhile_of_noLead _ hL
  have h2 : s.data.reverse.dropWhile RE.isSpace = s.data.reverse :=
    dropWhile_of_noLead _ hT
  unfold IC.strip
  rw [h1, h2, List.reverse_reverse]

theorem collapse_id (s : String) (hA : TN.allSp s.data)
    (hC : TN.chainOk s.data) : TN.collapse s = s := by
  unfold TN.collapse
  rw [(collapseAux_id s.data hA hC).1]

theorem normalize_shape (t l : String) (ht : t ≠ "") :
    TN.normalize t l =
      TN.stripWs (TN.collapse
        (TN.fixTranscription l (TN.normContractions l
          (TN.removeFillers l (TN.collapse (TN.stripWs t)))))) := by
  unfold TN.normalize
  rw [if_neg ht]

/-- Claim C2 (amended): `TextNormalizer.normalize` is idempotent on any
input on which the three word-substitution passes (filler removal,
contraction expansion, transcription fixes) fix the once-normalized text.
The original unconditional claim is refuted by
`C2_normalize_not_idempotent_cx`: filler removal can create a new
multi-word filler occurrence. -/
theorem C2_normalize_idempotent_amended (t l : String)
    (h1 : TN.removeFillers l (TN.normalize t l) = TN.normalize t l)
    (h2 : TN.normContractions l (TN.normalize t l) = TN.normalize t l)
    (h3 : TN.fixTranscription l (TN.normalize t l) = TN.normalize t l) :
    TN.normalize (TN.normalize t l) l = TN.normalize t l := by
  by_cases ht : t = ""
  · rw [ht]
    rfl
  · by_cases hn : TN.normalize t l = ""
    · rw [hn]
      rfl
    · have hsh := normalize_shape t l ht
      have hA : TN.allSp (TN.normalize t l).data := by
        rw [hsh]
        exact allSp_strip _ (allSp_collapseAux _ false)
      have hC : TN.chainOk (TN.normalize t l).data := by
        rw [hsh]
        exact chainOk_strip _ ((chain_collapseAux _).1 false)
      have hL : TN.noLead (TN.normalize t l).data := by
        rw [hsh]
        exact noLead_strip _
      have hT : TN.noTrail (TN.normalize t l).data := by
        rw [hsh]
        exact noTrail_strip _
      have hid1 : TN.collapse (TN.normalize t l) = TN.normalize t l :=
        collapse_id _ hA hC
      have hid2 : TN.stripWs (TN.normalize t l) = TN.normalize t l :=
        strip_id _ hL hT
      rw [normalize_shape (TN.normalize t l) l hn]
      rw [hid2, hid1, h1, h2, h3, hid1, hid2]

/-- Counterexample to the unconditional C2: on "you uh know" one pass
yields "you know", which the second pass deletes as a filler. -/
theorem C2_normalize_not_idempotent_cx :
    ¬TN.normalize (TN.normalize "you uh know" "en") "en" =
      TN.normalize "you uh know" "en" ∧
    TN.normalize "you uh know" "en" = "you know" ∧
    TN.normalize (TN.normalize "you uh know" "en") "en" = "" := by decide

set_option maxRecDepth 16384 in
/-- Witness for the amended C2 at text "hello world", language "en". -/
theorem C2_normalize_idempotent_witness :
    TN.removeFillers "en" (TN.normalize "hello world" "en") =
      TN.normalize "hello world" "en" ∧
    TN.normContractions "en" (TN.normalize "hello world" "en") =
      TN.normalize "hello world" "en" ∧
    TN.fixTranscription "en" (TN.normalize "hello world" "en") =
      TN.normalize "hello world" "en" ∧
    TN.normalize (TN.normalize "hello world" "en") "en" =
      TN.normalize "hello world" "en" :=
  ⟨by decide, by decide, by decide,
   C2_normalize_idempotent_amended "hello world" "en" (by decide) (by decide) (by decide)⟩
